import Mathlib

/-!
Shallow embedding of the hippo-tracker event sanitization engine.

The repository contains three overlapping iterations of the same engine:
* `IndexJs`  — the first variant in `src/index.js` (lines 1-193);
* `IndexJsB` — the second variant in `src/index.js` (lines 194-393);
* `Part000`  — the variant in `src/unnamed/part_000`.

JavaScript values are modelled by the inductive type `Jx` (JSON-like trees
plus a distinguished `undef` for JavaScript's `undefined`).  Machine
integers stand in for JavaScript numbers.  Fallible property accesses
(reading a property of `null`/`undefined` throws a TypeError) are modelled
with `Except Unit`.
-/

/-- A JavaScript value as it occurs in the tracker's data flow:
`null`, `undefined`, booleans, numbers, strings, arrays and plain objects
(ordered key/value lists, as produced by object literals). -/
inductive Jx : Type where
  | null : Jx
  | undef : Jx
  | bool : Bool → Jx
  | num : Int → Jx
  | str : String → Jx
  | arr : List Jx → Jx
  | obj : List (String × Jx) → Jx

/-- JavaScript loose `v == null`, true exactly for `null` and `undefined`. -/
def isNullish : Jx → Bool
  | .null => true
  | .undef => true
  | _ => false

/-- JavaScript truthiness of a value. -/
def truthy : Jx → Bool
  | .null => false
  | .undef => false
  | .bool b => b
  | .num n => decide (n ≠ 0)
  | .str s => decide (s ≠ "")
  | .arr _ => true
  | .obj _ => true

/-- `Array.isArray(v) && v.length === 0`. -/
def isEmptyArr : Jx → Bool
  | .arr [] => true
  | _ => false

/-- Optional-chaining property read `v?.k`: `undefined` when the receiver is
nullish, the property value (or `undefined` when absent) on objects,
`undefined` on primitives.  Also used for plain `v.k` at places where the
source guarantees the receiver is not nullish. -/
def getOpt (v : Jx) (k : String) : Jx :=
  match v with
  | .obj es => (List.lookup k es).getD .undef
  | _ => Jx.undef

/-- Direct property read `v.k`, which throws a TypeError when the receiver
is `null` or `undefined`. -/
def getF (v : Jx) (k : String) : Except Unit Jx :=
  match v with
  | .null => .error ()
  | .undef => .error ()
  | .obj es => .ok ((List.lookup k es).getD .undef)
  | _ => .ok Jx.undef

/-- Nullish coalescing `a ?? b`. -/
def jor (a b : Jx) : Jx := if isNullish a then b else a

/-- `v ?? null`, normalizing `undefined` to `null`. -/
def nn (v : Jx) : Jx := jor v .null

/-- JavaScript `s.slice(0, n)` on strings, as character-level truncation
(the spec allows byte-agnostic character slicing). -/
def jsSlice (s : String) (n : Nat) : String := String.mk (s.toList.take n)

mutual

/-- `removeNulls` from `src/index.js` lines 182-193 (the identical helper
also appears at `src/index.js` lines 377-390): recursively removes nulls,
drops object keys whose value is null/undefined or an empty array, and
collapses objects that become empty to `null`. -/
def IndexJs.removeNulls : Jx → Jx
  | .arr l =>
      .arr ((IndexJs.removeNullsList l).filter (fun v => !(isNullish v)))
  | .obj es =>
      let cleaned := (IndexJs.removeNullsEntries es).filter
        (fun kv => !(isNullish kv.2) && !(isEmptyArr kv.2))
      if cleaned.isEmpty then .null else .obj cleaned
  | v => v

/-- `obj.map(removeNulls)` over an array's elements. -/
def IndexJs.removeNullsList : List Jx → List Jx
  | [] => []
  | v :: l => IndexJs.removeNulls v :: IndexJs.removeNullsList l

/-- `Object.entries(obj).map(([k, v]) => [k, removeNulls(v)])`. -/
def IndexJs.removeNullsEntries : List (String × Jx) → List (String × Jx)
  | [] => []
  | kv :: es => (kv.1, IndexJs.removeNulls kv.2) :: IndexJs.removeNullsEntries es

end

mutual

/-- `removeNulls` from `src/unnamed/part_000` lines 264-275: maps over
arrays without filtering, drops object keys whose value is null/undefined,
and — unlike the `index.js` variant — returns the cleaned object even when
it has become empty. -/
def Part000.removeNulls : Jx → Jx
  | .arr l => .arr (Part000.removeNullsList l)
  | .obj es =>
      .obj ((Part000.removeNullsEntries es).filter (fun kv => !(isNullish kv.2)))
  | v => v

/-- `obj.map(removeNulls)` over an array's elements. -/
def Part000.removeNullsList : List Jx → List Jx
  | [] => []
  | v :: l => Part000.removeNulls v :: Part000.removeNullsList l

/-- `Object.entries(obj).map(([k, v]) => [k, removeNulls(v)])`. -/
def Part000.removeNullsEntries : List (String × Jx) → List (String × Jx)
  | [] => []
  | kv :: es => (kv.1, Part000.removeNulls kv.2) :: Part000.removeNullsEntries es

end

example : IndexJs.removeNulls (.obj [("a", .null), ("b", .num 0)]) = .obj [("b", .num 0)] := rfl

example : Part000.removeNulls (.obj [("a", .obj [("x", .null)])]) = .obj [("a", .obj [])] := rfl

/-- Structural induction principle for `Jx` with membership hypotheses for
the nested lists. -/
theorem Jx.indOn (P : Jx → Prop) (hnull : P .null) (hundef : P .undef)
    (hbool : ∀ b, P (.bool b)) (hnum : ∀ n, P (.num n)) (hstr : ∀ s, P (.str s))
    (harr : ∀ l, (∀ v ∈ l, P v) → P (.arr l))
    (hobj : ∀ es, (∀ kv ∈ es, P kv.2) → P (.obj es)) :
    ∀ x, P x := fun x =>
  match x with
  | .null => hnull
  | .undef => hundef
  | .bool b => hbool b
  | .num n => hnum n
  | .str s => hstr s
  | .arr l => harr l (fun v _ => Jx.indOn P hnull hundef hbool hnum hstr harr hobj v)
  | .obj es => hobj es (fun kv _ => Jx.indOn P hnull hundef hbool hnum hstr harr hobj kv.2)
termination_by x => sizeOf x
decreasing_by
  · have := List.sizeOf_lt_of_mem (by assumption : v ∈ l)
    simp only [Jx.arr.sizeOf_spec]
    omega
  · have h1 := List.sizeOf_lt_of_mem (by assumption : kv ∈ es)
    have h2 : sizeOf kv.2 < sizeOf kv := by
      obtain ⟨a, b⟩ := kv
      simp only [Prod.mk.sizeOf_spec]
      omega
    simp only [Jx.obj.sizeOf_spec]
    omega

theorem IndexJs.removeNullsList_eq_map (l : List Jx) :
    IndexJs.removeNullsList l = l.map IndexJs.removeNulls := by
  induction l with
  | nil => rfl
  | cons v l ih => simp [IndexJs.removeNullsList, ih]

theorem IndexJs.removeNullsEntries_eq_map (es : List (String × Jx)) :
    IndexJs.removeNullsEntries es = es.map (fun kv => (kv.1, IndexJs.removeNulls kv.2)) := by
  induction es with
  | nil => rfl
  | cons kv es ih => simp [IndexJs.removeNullsEntries, ih]

theorem Part000.removeNullsList_map_eq (l : List Jx) :
    Part000.removeNullsList l = l.map Part000.removeNulls := by
  induction l with
  | nil => rfl
  | cons v l ih => simp [Part000.removeNullsList, ih]

theorem Part000.removeNullsEntries_map_eq (es : List (String × Jx)) :
    Part000.removeNullsEntries es = es.map (fun kv => (kv.1, Part000.removeNulls kv.2)) := by
  induction es with
  | nil => rfl
  | cons kv es ih => simp [Part000.removeNullsEntries, ih]

theorem IndexJs.removeNulls_idem (x : Jx) :
    IndexJs.removeNulls (IndexJs.removeNulls x) = IndexJs.removeNulls x := by
  induction x using Jx.indOn with
  | hnull => rfl
  | hundef => rfl
  | hbool b => rfl
  | hnum n => rfl
  | hstr s => rfl
  | harr l ih =>
      simp only [IndexJs.removeNulls, IndexJs.removeNullsList_eq_map]
      congr 1
      have hmap : ((l.map IndexJs.removeNulls).filter (fun v => !(isNullish v))).map
          IndexJs.removeNulls
          = (l.map IndexJs.removeNulls).filter (fun v => !(isNullish v)) := by
        rw [List.map_congr_left (g := id), List.map_id]
        intro w hw
        obtain ⟨hw1, _⟩ := List.mem_filter.mp hw
        obtain ⟨v, hv, rfl⟩ := List.mem_map.mp hw1
        exact ih v hv
      rw [hmap, List.filter_eq_self.mpr]
      intro w hw
      exact (List.mem_filter.mp hw).2
  | hobj es ih =>
      simp only [IndexJs.removeNulls, IndexJs.removeNullsEntries_eq_map]
      by_cases hemp : ((es.map (fun kv => (kv.1, IndexJs.removeNulls kv.2))).filter
          (fun kv => !(isNullish kv.2) && !(isEmptyArr kv.2))).isEmpty
      · rw [if_pos hemp]
        rfl
      · rw [if_neg hemp]
        simp only [IndexJs.removeNulls, IndexJs.removeNullsEntries_eq_map]
        have hmap : ((es.map (fun kv => (kv.1, IndexJs.removeNulls kv.2))).filter
            (fun kv => !(isNullish kv.2) && !(isEmptyArr kv.2))).map
              (fun kv => (kv.1, IndexJs.removeNulls kv.2))
            = (es.map (fun kv => (kv.1, IndexJs.removeNulls kv.2))).filter
              (fun kv => !(isNullish kv.2) && !(isEmptyArr kv.2)) := by
          rw [List.map_congr_left (g := id), List.map_id]
          intro kv hkv
          obtain ⟨hkv1, _⟩ := List.mem_filter.mp hkv
          obtain ⟨⟨k, v⟩, hv, heq⟩ := List.mem_map.mp hkv1
          subst heq
          simp only [id_eq, Prod.mk.injEq, true_and]
          exact ih ⟨k, v⟩ hv
        rw [hmap]
        rw [List.filter_eq_self.mpr (fun kv hkv => (List.mem_filter.mp hkv).2)]
        rw [if_neg hemp]

theorem Part000.removeNulls_idempotent (x : Jx) :
    Part000.removeNulls (Part000.removeNulls x) = Part000.removeNulls x := by
  induction x using Jx.indOn with
  | hnull => rfl
  | hundef => rfl
  | hbool b => rfl
  | hnum n => rfl
  | hstr s => rfl
  | harr l ih =>
      simp only [Part000.removeNulls, Part000.removeNullsList_map_eq]
      congr 1
      rw [List.map_congr_left (g := id), List.map_id]
      intro w hw
      obtain ⟨v, hv, rfl⟩ := List.mem_map.mp hw
      exact ih v hv
  | hobj es ih =>
      simp only [Part000.removeNulls, Part000.removeNullsEntries_map_eq]
      congr 1
      have hmap : ((es.map (fun kv => (kv.1, Part000.removeNulls kv.2))).filter
          (fun kv => !(isNullish kv.2))).map (fun kv => (kv.1, Part000.removeNulls kv.2))
          = (es.map (fun kv => (kv.1, Part000.removeNulls kv.2))).filter
            (fun kv => !(isNullish kv.2)) := by
        rw [List.map_congr_left (g := id), List.map_id]
        intro kv hkv
        obtain ⟨hkv1, _⟩ := List.mem_filter.mp hkv
        obtain ⟨⟨k, v⟩, hv, heq⟩ := List.mem_map.mp hkv1
        subst heq
        simp only [id_eq, Prod.mk.injEq, true_and]
        exact ih ⟨k, v⟩ hv
      rw [hmap]
      exact List.filter_eq_self.mpr (fun kv hkv => (List.mem_filter.mp hkv).2)

/-- The Telegraf context as the tracker sees it: the raw `update` plus the
runtime-supplied `from`/`chat` shorthands (`from` is a reserved word in
Lean, hence `from_`). -/
structure Ctx : Type where
  update : Jx
  from_ : Jx
  chat : Jx

/-- Telegraf getter `ctx.message` (`this.update.message`); total because
the framework always constructs the context from an update object. -/
def Ctx.message (c : Ctx) : Jx := getOpt c.update "message"

/-- Telegraf getter `ctx.callbackQuery`. -/
def Ctx.callbackQuery (c : Ctx) : Jx := getOpt c.update "callback_query"

/-- Telegraf getter `ctx.inlineQuery`. -/
def Ctx.inlineQuery (c : Ctx) : Jx := getOpt c.update "inline_query"

/-- Telegraf getter `ctx.preCheckoutQuery`. -/
def Ctx.preCheckoutQuery (c : Ctx) : Jx := getOpt c.update "pre_checkout_query"

/-- Telegraf getter `ctx.shippingQuery`. -/
def Ctx.shippingQuery (c : Ctx) : Jx := getOpt c.update "shipping_query"

/-- Hex digit in lowercase, as produced by JavaScript's JSON escapes. -/
def hexDigit (n : Nat) : Char := if n < 10 then Char.ofNat (48 + n) else Char.ofNat (87 + n)

/-- Escape of a single character inside a JSON string literal. -/
def escChar (c : Char) : String :=
  if c = '"' then "\\\""
  else if c = '\\' then "\\\\"
  else if c = '\n' then "\\n"
  else if c = '\r' then "\\r"
  else if c = '\t' then "\\t"
  else if c.toNat = 8 then "\\b"
  else if c.toNat = 12 then "\\f"
  else if c.toNat < 32 then "\\u00" ++ String.mk [hexDigit (c.toNat / 16), hexDigit (c.toNat % 16)]
  else String.mk [c]

/-- A JSON string literal with its delimiting quotes. -/
def jsonEscape (s : String) : String := "\"" ++ String.join (s.toList.map escChar) ++ "\""

mutual

/-- Rendering of a value by `JSON.stringify`, for the positions where the
tracker serializes (`undefined` appears as `null` here because nested
`undefined` only ever survives inside arrays; object entries with
`undefined` values are skipped by `jstrEntries`, and a top-level
`undefined` is handled by `jsonStringify`). -/
def jstr : Jx → String
  | .null => "null"
  | .undef => "null"
  | .bool true => "true"
  | .bool false => "false"
  | .num n => toString n
  | .str s => jsonEscape s
  | .arr l => "[" ++ String.intercalate "," (jstrList l) ++ "]"
  | .obj es => "\x7b" ++ String.intercalate "," (jstrEntries es) ++ "\x7d"

/-- Renderings of an array's elements. -/
def jstrList : List Jx → List String
  | [] => []
  | v :: l => jstr v :: jstrList l

/-- Renderings of an object's entries; keys with `undefined` values are
dropped, as `JSON.stringify` does. -/
def jstrEntries : List (String × Jx) → List String
  | [] => []
  | (_, .undef) :: es => jstrEntries es
  | (k, v) :: es => (jsonEscape k ++ ":" ++ jstr v) :: jstrEntries es

end

/-- `JSON.stringify(v)`: a string for every value except a top-level
`undefined`, for which `JSON.stringify` returns `undefined`. -/
def jsonStringify : Jx → Jx
  | .undef => .undef
  | v => .str (jstr v)

example : jstr (.obj [("a", .num 1), ("b", .undef), ("c", .arr [.null, .str "x"])])
    = "\x7b\"a\":1,\"c\":[null,\"x\"]\x7d" := rfl

/-- `detectEventType` from `src/index.js` lines 81-102; the identical
function also appears at `src/unnamed/part_000` lines 82-103.  Reading
`update.message` throws a TypeError when `ctx.update` is `null` or
`undefined`, hence the `Except`. -/
def IndexJs.detectEventTypeCore (u : Jx) : String :=
  if truthy (getOpt u "message") then "message"
  else if truthy (getOpt u "callback_query") then "callback_query"
  else if truthy (getOpt u "inline_query") then "inline_query"
  else if truthy (getOpt u "chosen_inline_result") then "chosen_inline_result"
  else if truthy (getOpt u "poll") then "poll"
  else if truthy (getOpt u "poll_answer") then "poll_answer"
  else if truthy (getOpt u "pre_checkout_query") then "pre_checkout_query"
  else if truthy (getOpt u "shipping_query") then "shipping_query"
  else if truthy (getOpt u "chat_join_request") then "chat_join_request"
  else if truthy (getOpt u "chat_member") then "chat_member"
  else if truthy (getOpt u "my_chat_member") then "my_chat_member"
  else if truthy (getOpt u "business_message") then "business_message"
  else if truthy (getOpt u "edited_business_message") then "edited_business_message"
  else if truthy (getOpt u "deleted_business_messages") then "deleted_business_messages"
  else if truthy (getOpt u "message_reaction") then "message_reaction"
  else if truthy (getOpt u "message_reaction_count") then "message_reaction_count"
  else "unknown"

/-- The fallible entry point: `const update = ctx.update; if (update.message) ...`
throws when the update is nullish, otherwise runs the predicate chain. -/
def IndexJs.detectEventType (ctx : Ctx) : Except Unit String :=
  match ctx.update with
  | .null => .error ()
  | .undef => .error ()
  | u => .ok (IndexJs.detectEventTypeCore u)

/-- The closed category enumeration of `IndexJs.detectEventType`. -/
def v1Categories : List String :=
  ["message", "callback_query", "inline_query", "chosen_inline_result", "poll",
   "poll_answer", "pre_checkout_query", "shipping_query", "chat_join_request",
   "chat_member", "my_chat_member", "business_message", "edited_business_message",
   "deleted_business_messages", "message_reaction", "message_reaction_count", "unknown"]

/-- `detectEventType` from `src/index.js` lines 233-266 (second variant):
message sub-kinds are classified first, in source order, so a message
carrying several markers gets the earliest (highest-priority) category. -/
def IndexJsB.detectEventTypeCore (u : Jx) : String :=
    if truthy (getOpt u "message") then
      if truthy (getOpt (getOpt u "message") "successful_payment") then "successful_payment"
      else if truthy (getOpt (getOpt u "message") "invoice") then "invoice"
      else if truthy (getOpt (getOpt u "message") "text") then "text_message"
      else if truthy (getOpt (getOpt u "message") "photo") then "photo_message"
      else if truthy (getOpt (getOpt u "message") "video") then "video_message"
      else if truthy (getOpt (getOpt u "message") "document") then "document_message"
      else if truthy (getOpt (getOpt u "message") "audio") then "audio_message"
      else if truthy (getOpt (getOpt u "message") "voice") then "voice_message"
      else if truthy (getOpt (getOpt u "message") "sticker") then "sticker_message"
      else if truthy (getOpt (getOpt u "message") "poll") then "poll_message"
      else if truthy (getOpt (getOpt u "message") "contact") then "contact_message"
      else if truthy (getOpt (getOpt u "message") "location") then "location_message"
      else "message"
    else if truthy (getOpt u "edited_message") then "edited_message"
    else if truthy (getOpt u "channel_post") then "channel_post"
    else if truthy (getOpt u "edited_channel_post") then "edited_channel_post"
    else if truthy (getOpt u "inline_query") then "inline_query"
    else if truthy (getOpt u "chosen_inline_result") then "chosen_inline_result"
    else if truthy (getOpt u "callback_query") then "callback_query"
    else if truthy (getOpt u "shipping_query") then "shipping_query"
    else if truthy (getOpt u "pre_checkout_query") then "pre_checkout_query"
    else if truthy (getOpt u "poll") then "poll"
    else if truthy (getOpt u "poll_answer") then "poll_answer"
    else if truthy (getOpt u "my_chat_member") then "my_chat_member"
    else if truthy (getOpt u "chat_member") then "chat_member"
    else if truthy (getOpt u "chat_join_request") then "chat_join_request"
    else "unknown"

/-- The fallible entry point of the second classifier. -/
def IndexJsB.detectEventType (ctx : Ctx) : Except Unit String :=
  match ctx.update with
  | .null => .error ()
  | .undef => .error ()
  | u => .ok (IndexJsB.detectEventTypeCore u)

/-- `safeText` from `src/index.js` lines 135-136: strings are sliced to
the maximum, everything else becomes `null`. -/
def IndexJs.safeText (text : Jx) (max : Nat) : Jx :=
  match text with
  | .str s => .str (jsSlice s max)
  | _ => .null

/-- `safeText` from `src/unnamed/part_000` lines 127-132: strings are
sliced; non-null objects (arrays included, since `typeof` calls them
`"object"`) are `JSON.stringify`-ed and then sliced; everything else
becomes `null`. -/
def Part000.safeText (text : Jx) (max : Nat) : Jx :=
  match text with
  | .str s => .str (jsSlice s max)
  | .arr l => .str (jsSlice (jstr (.arr l)) max)
  | .obj es => .str (jsSlice (jstr (.obj es)) max)
  | _ => .null

/-- The string rule of `sanitizeUpdate` (`src/unnamed/part_000` lines
211-216): strings longer than the limit are sliced and get the
`...[truncated]` marker appended. -/
def Part000.truncateText (max : Nat) (s : String) : String :=
  if max < s.length then jsSlice s max ++ "...[truncated]" else s

/-- The media-like field name list of `sanitizeUpdate`
(`src/unnamed/part_000` lines 220-233). -/
def mediaKeys : List String :=
  ["photo", "video", "document", "voice", "sticker", "animation", "audio",
   "video_note", "new_chat_photo", "thumb", "thumbnail"]

/-- The identifier-pair projection applied to one media item:
`(v) => (\x7b file_id: v.file_id, file_unique_id: v.file_unique_id \x7d)`.
Property access throws on a nullish item. -/
def idPair (v : Jx) : Except Unit Jx := do
  let a ← getF v "file_id"
  let b ← getF v "file_unique_id"
  .ok (.obj [("file_id", a), ("file_unique_id", b)])

/-- `val.map(idPair)` over the items of an array-valued media field. -/
def idPairList : List Jx → Except Unit (List Jx)
  | [] => .ok []
  | v :: l => do
      let p ← idPair v
      let rest ← idPairList l
      .ok (p :: rest)

mutual

/-- The inner `sanitize` visitor of `sanitizeUpdate`
(`src/unnamed/part_000` lines 204-256). -/
def Part000.sanitize (max : Nat) : Jx → Except Unit Jx
  | .arr l => do
      let l' ← Part000.sanitizeList max l
      .ok (.arr l')
  | .obj es => do
      let es' ← Part000.sanitizeEntries max es
      .ok (.obj es')
  | v => .ok v

/-- `obj.map(sanitize)` over an array's elements. -/
def Part000.sanitizeList (max : Nat) : List Jx → Except Unit (List Jx)
  | [] => .ok []
  | v :: l => do
      let v' ← Part000.sanitize max v
      let l' ← Part000.sanitizeList max l
      .ok (v' :: l')

/-- The `for (const [key, val] of Object.entries(obj))` loop of `sanitize`:
string values are truncated; media-named keys keep only the identifier
pair (array values element-wise, other non-object values are dropped);
all remaining keys recurse. -/
def Part000.sanitizeEntries (max : Nat) : List (String × Jx) → Except Unit (List (String × Jx))
  | [] => .ok []
  | (k, val) :: es => do
      let rest ← Part000.sanitizeEntries max es
      match val with
      | .str s => .ok ((k, .str (Part000.truncateText max s)) :: rest)
      | _ =>
        if mediaKeys.contains k then
          match val with
          | .arr l => do
              let pairs ← idPairList l
              .ok ((k, .arr pairs) :: rest)
          | .obj fs =>
              .ok ((k, .obj [("file_id", getOpt (.obj fs) "file_id"),
                             ("file_unique_id", getOpt (.obj fs) "file_unique_id")]) :: rest)
          | _ => .ok rest
        else do
          let v' ← Part000.sanitize max val
          .ok ((k, v') :: rest)

end

/-- `sanitizeUpdate` from `src/unnamed/part_000` lines 203-259. -/
def Part000.sanitizeUpdate (update : Jx) (maxTextLength : Nat) : Except Unit Jx :=
  Part000.sanitize maxTextLength update

example :
    Part000.sanitizeUpdate
      (.obj [("photo", .arr [.obj [("file_id", .str "a"), ("file_unique_id", .str "b"),
                                   ("width", .num 100)]])]) 500
      = .ok (.obj [("photo", .arr [.obj [("file_id", .str "a"),
                                          ("file_unique_id", .str "b")]])]) := rfl

example :
    Part000.sanitizeUpdate (.obj [("message", .obj [("photo", .arr [.null])])]) 500
      = .error () := rfl

/-- The payload object literal of `safeCtx` from `src/unnamed/part_000`
(lines 152-195). -/
def Part000.payload (ctx : Ctx) (bot : Jx) (includeRawUpdate : Bool) (maxTextLength : Nat) :
    List (String × Jx) :=
  let botId0 := nn (getOpt (getOpt bot "botInfo") "id")
  let botUsername0 := nn (getOpt (getOpt bot "botInfo") "username")
  let botFrom :=
    jor (getOpt (getOpt ctx.update "message") "from")
      (jor (getOpt (getOpt (getOpt ctx.update "callback_query") "message") "from")
        (jor (getOpt (getOpt ctx.update "business_message") "from")
          (jor (getOpt (getOpt ctx.update "edited_business_message") "from") .null)))
  let fallback := (!(truthy botId0) || !(truthy botUsername0)) && truthy (getOpt botFrom "is_bot")
  let botId := if fallback then jor botId0 (getOpt botFrom "id") else botId0
  let botUsername := if fallback then jor botUsername0 (getOpt botFrom "username") else botUsername0
  [("bot", .obj [("id", botId), ("username", botUsername)]),
    ("user", .obj [("id", nn (getOpt ctx.from_ "id")),
                   ("username", nn (getOpt ctx.from_ "username")),
                   ("first_name", nn (getOpt ctx.from_ "first_name")),
                   ("last_name", nn (getOpt ctx.from_ "last_name")),
                   ("language_code", nn (getOpt ctx.from_ "language_code"))]),
    ("chat", .obj [("id", nn (getOpt ctx.chat "id")),
                   ("type", nn (getOpt ctx.chat "type")),
                   ("title", nn (getOpt ctx.chat "title")),
                   ("username", nn (getOpt ctx.chat "username"))]),
    ("message", Part000.safeText (getOpt ctx.message "text") maxTextLength),
    ("callback_query", Part000.safeText (getOpt ctx.callbackQuery "data") maxTextLength),
    ("inline_query", Part000.safeText (getOpt ctx.inlineQuery "query") maxTextLength),
    ("media_type",
      if truthy (getOpt ctx.message "photo") then .str "photo"
      else if truthy (getOpt ctx.message "video") then .str "video"
      else if truthy (getOpt ctx.message "document") then .str "document"
      else if truthy (getOpt ctx.message "sticker") then .str "sticker"
      else .null),
    ("raw_update",
      if includeRawUpdate then
        match Part000.sanitizeUpdate ctx.update maxTextLength with
        | .ok s => jsonStringify s
        | .error _ => .null
      else .null)]

/-- `safeCtx` from `src/unnamed/part_000` lines 126-198: builds the
payload and prunes it with this variant's `removeNulls`. -/
def Part000.safeCtx (ctx : Ctx) (bot : Jx) (includeRawUpdate : Bool) (maxTextLength : Nat) : Jx :=
  Part000.removeNulls (.obj (Part000.payload ctx bot includeRawUpdate maxTextLength))

/-- `photo.map((p) => p.file_id)`. -/
def IndexJsB.fileIds : List Jx → Except Unit (List Jx)
  | [] => .ok []
  | p :: l => do
      let a ← getF p "file_id"
      let rest ← IndexJsB.fileIds l
      .ok (a :: rest)

/-- `ctx.message?.photo?.map((p) => p.file_id) ?? null` from the second
`safeCtx` in `src/index.js` (line 305): nullish `photo` short-circuits to
null, an array maps to its `file_id`s (throwing on nullish items), and any
other value throws because `.map` is not a function on it. -/
def IndexJsB.photoField (msg : Jx) : Except Unit Jx :=
  match getOpt msg "photo" with
  | .null => .ok .null
  | .undef => .ok .null
  | .arr l => do
      let ids ← IndexJsB.fileIds l
      .ok (.arr ids)
  | _ => .error ()

/-- `options.map((o) => o.text)`. -/
def IndexJsB.optionTexts : List Jx → Except Unit (List Jx)
  | [] => .ok []
  | o :: l => do
      let t ← getF o "text"
      let rest ← IndexJsB.optionTexts l
      .ok (t :: rest)

/-- The `poll` field of the second `safeCtx` in `src/index.js`
(lines 313-318): a truthy poll yields its question and option texts
(`options.map` throws unless `options` is an array); otherwise null. -/
def IndexJsB.pollField (msg : Jx) : Except Unit Jx :=
  let poll := getOpt msg "poll"
  if truthy poll then
    match getOpt poll "options" with
    | .arr l => do
        let texts ← IndexJsB.optionTexts l
        .ok (.obj [("question", getOpt poll "question"), ("options", .arr texts)])
    | _ => .error ()
  else .ok .null

/-- `x?.slice(0, n) ?? null` as used for the text fields of the second
`safeCtx` in `src/index.js` (lines 292-294): nullish short-circuits to
null, strings and arrays slice, anything else throws because `.slice` is
not a function on it. -/
def IndexJsB.sliceText (v : Jx) (n : Nat) : Except Unit Jx :=
  match v with
  | .null => .ok .null
  | .undef => .ok .null
  | .str s => .ok (.str (jsSlice s n))
  | .arr l => .ok (.arr (l.take n))
  | _ => .error ()

/-- The `payment` field of the second `safeCtx` in `src/index.js`
(lines 322-354); the source re-reads `ctx.message.successful_payment`
(resp. `.invoice`) for every field, mirrored here. -/
def IndexJsB.paymentField (ctx : Ctx) : Jx :=
  if truthy (getOpt ctx.message "successful_payment") then
    .obj [("currency", getOpt (getOpt ctx.message "successful_payment") "currency"),
          ("total_amount", getOpt (getOpt ctx.message "successful_payment") "total_amount"),
          ("invoice_payload", getOpt (getOpt ctx.message "successful_payment") "invoice_payload"),
          ("telegram_payment_charge_id",
            getOpt (getOpt ctx.message "successful_payment") "telegram_payment_charge_id"),
          ("provider_payment_charge_id",
            getOpt (getOpt ctx.message "successful_payment") "provider_payment_charge_id")]
  else if truthy (getOpt ctx.message "invoice") then
    .obj [("title", getOpt (getOpt ctx.message "invoice") "title"),
          ("description", getOpt (getOpt ctx.message "invoice") "description"),
          ("currency", getOpt (getOpt ctx.message "invoice") "currency"),
          ("total_amount", getOpt (getOpt ctx.message "invoice") "total_amount"),
          ("start_parameter", getOpt (getOpt ctx.message "invoice") "start_parameter"),
          ("payload", getOpt (getOpt ctx.message "invoice") "payload")]
  else if truthy ctx.preCheckoutQuery then
    .obj [("id", getOpt ctx.preCheckoutQuery "id"),
          ("currency", getOpt ctx.preCheckoutQuery "currency"),
          ("total_amount", getOpt ctx.preCheckoutQuery "total_amount"),
          ("payload", getOpt ctx.preCheckoutQuery "invoice_payload")]
  else if truthy ctx.shippingQuery then
    .obj [("id", getOpt ctx.shippingQuery "id"),
          ("payload", getOpt ctx.shippingQuery "invoice_payload"),
          ("shipping_address", getOpt ctx.shippingQuery "shipping_address")]
  else .null

/-- The `raw_update` field of the second `safeCtx` in `src/index.js`
(lines 357-368): financial categories serialize the whole update with no
truncation; all others serialize and slice to 500 characters (null when
the update is falsy). -/
def IndexJsB.rawUpdateField (u : Jx) (eventType : String) : Jx :=
  if eventType = "successful_payment" ∨ eventType = "invoice" ∨
      eventType = "pre_checkout_query" ∨ eventType = "shipping_query" then
    jsonStringify u
  else if truthy u then .str (jsSlice (jstr u) 500)
  else .null

/-- The payload object literal of the second `safeCtx` in `src/index.js`
(lines 278-369), with the fallible sub-computations passed in. -/
def IndexJsB.payload (ctx : Ctx) (bot : Jx) (now : Int) (eventType : String)
    (message cbq inq photo poll : Jx) : List (String × Jx) :=
  [("bot", .obj [("username", nn (getOpt (getOpt bot "botInfo") "username")),
                  ("id", nn (getOpt (getOpt bot "botInfo") "id"))]),
    ("user", .obj [("id", nn (getOpt ctx.from_ "id")),
                   ("username", nn (getOpt ctx.from_ "username"))]),
    ("chat", .obj [("id", nn (getOpt ctx.chat "id")),
                   ("type", nn (getOpt ctx.chat "type"))]),
    ("event_type", .str eventType),
    ("message", nn message),
    ("callback_query", nn cbq),
    ("inline_query", nn inq),
    ("tg_date",
      jor (getOpt (getOpt ctx.update "message") "date")
        (jor (getOpt (getOpt ctx.update "edited_message") "date")
          (jor (getOpt (getOpt ctx.update "channel_post") "date")
            (jor (getOpt (getOpt ctx.update "edited_channel_post") "date") .null)))),
    ("app_date", .num now),
    ("media", .obj [
      ("photo", nn photo),
      ("document", nn (getOpt (getOpt ctx.message "document") "file_id")),
      ("video", nn (getOpt (getOpt ctx.message "video") "file_id")),
      ("audio", nn (getOpt (getOpt ctx.message "audio") "file_id")),
      ("voice", nn (getOpt (getOpt ctx.message "voice") "file_id")),
      ("sticker", nn (getOpt (getOpt ctx.message "sticker") "file_id")),
      ("contact", nn (getOpt ctx.message "contact")),
      ("location", nn (getOpt ctx.message "location")),
      ("poll", poll)]),
   ("payment", IndexJsB.paymentField ctx),
   ("raw_update", IndexJsB.rawUpdateField ctx.update eventType)]

/-- `safeCtx` from `src/index.js` lines 275-393 (second variant):
classifies, builds the payload and prunes it with the `removeNulls`
helper (the copy at lines 377-390 is verbatim the one at lines 182-193). -/
def IndexJsB.safeCtx (ctx : Ctx) (bot : Jx) (now : Int) : Except Unit Jx := do
  let eventType ← IndexJsB.detectEventType ctx
  let message ← IndexJsB.sliceText (getOpt ctx.message "text") 200
  let cbq ← IndexJsB.sliceText (getOpt ctx.callbackQuery "data") 200
  let inq ← IndexJsB.sliceText (getOpt ctx.inlineQuery "query") 200
  let photo ← IndexJsB.photoField ctx.message
  let poll ← IndexJsB.pollField ctx.message
  .ok (IndexJs.removeNulls
    (.obj (IndexJsB.payload ctx bot now eventType message cbq inq photo poll)))

/-- A value that the no-null invariant forbids as a key's value:
null, undefined, an empty sequence, or an empty mapping. -/
def badVal : Jx → Bool
  | .null => true
  | .undef => true
  | .arr [] => true
  | .obj [] => true
  | _ => false

mutual

/-- The claim's no-null invariant, decidably: at every depth, no object
key carries a null, undefined, empty-sequence or empty-mapping value. -/
def noBadKeys : Jx → Bool
  | .arr l => noBadKeysList l
  | .obj es => noBadKeysEntries es
  | _ => true

/-- `noBadKeys` over an array's elements. -/
def noBadKeysList : List Jx → Bool
  | [] => true
  | v :: l => noBadKeys v && noBadKeysList l

/-- `noBadKeys` over an object's entries. -/
def noBadKeysEntries : List (String × Jx) → Bool
  | [] => true
  | (_, v) :: es => !(badVal v) && noBadKeys v && noBadKeysEntries es

end

/-- A non-null scalar (boolean, number or string) — in particular the
falsy scalars `0`, `false` and the empty string. -/
def primNonNull : Jx → Bool
  | .bool _ => true
  | .num _ => true
  | .str _ => true
  | _ => false

/-- An object whose keys are exactly the identifier pair
`file_id`, `file_unique_id`. -/
def isIdPair : Jx → Bool
  | .obj [("file_id", _), ("file_unique_id", _)] => true
  | _ => false

/-- The shape a media-keyed value may have after sanitization: a truncated
string (string values are handled by the string rule before the media
rule and have no sub-fields), a lone identifier pair, or an array of
identifier pairs. -/
def mediaClean : Jx → Bool
  | .str _ => true
  | .arr l => l.all isIdPair
  | v => isIdPair v

mutual

/-- Deep media-cleanliness: every media-named key of every object reached
by the sanitizer's traversal holds a `mediaClean` value, and all other
keys and array elements are recursively clean. -/
def cleanM : Jx → Bool
  | .arr l => cleanMList l
  | .obj es => cleanMEntries es
  | _ => true

/-- `cleanM` over an array's elements. -/
def cleanMList : List Jx → Bool
  | [] => true
  | v :: l => cleanM v && cleanMList l

/-- `cleanM` over an object's entries. -/
def cleanMEntries : List (String × Jx) → Bool
  | [] => true
  | (k, v) :: es =>
      (if mediaKeys.contains k then mediaClean v else cleanM v) && cleanMEntries es

end

/-- Membership of an if-then-else from membership of both branches. -/
theorem mem_ite_of_mem {α} {c : Prop} [Decidable c] {a b : α} {L : List α}
    (ha : a ∈ L) (hb : b ∈ L) : (if c then a else b) ∈ L := by
  split
  · exact ha
  · exact hb

/-- C1: For every finite RawEvent-and-composed tree `x`, the Null Pruner is
idempotent — `prune(prune(x)) = prune(x)` — for both pruner variants of the
repository (`removeNulls` of `src/index.js` lines 182-193 and `removeNulls`
of `src/unnamed/part_000` lines 264-275). -/
theorem claim_C1_prune_idempotent (x : Jx) :
    IndexJs.removeNulls (IndexJs.removeNulls x) = IndexJs.removeNulls x ∧
    Part000.removeNulls (Part000.removeNulls x) = Part000.removeNulls x :=
  ⟨IndexJs.removeNulls_idem x, Part000.removeNulls_idempotent x⟩

/-- C2: the claim that the composed-and-pruned record of `safeCtx` never
contains a null, undefined, empty-sequence or empty-mapping value fails on
the `src/unnamed/part_000` variant, whose `removeNulls` keeps objects that
became empty: on a raw event with no recognizable fields the composed
record is exactly the three empty mappings `bot`, `user`, `chat`, so the
no-null invariant predicate evaluates to `false` on it. -/
theorem claim_C2_empty_mappings_retained :
    Part000.safeCtx ⟨.obj [], .undef, .undef⟩ .undef false 500
      = .obj [("bot", .obj []), ("user", .obj []), ("chat", .obj [])] ∧
    noBadKeys (Part000.safeCtx ⟨.obj [], .undef, .undef⟩ .undef false 500) = false :=
  ⟨rfl, rfl⟩

/-- C3 (amended): for every context whose `update` field is present and
non-null, the classifier of `src/index.js` lines 81-102 (identical at
`src/unnamed/part_000` lines 82-103) is total and deterministic, returning
exactly one category of the closed enumeration (falling back to
`"unknown"`); totality fails when the update is absent, see the
counterexample. -/
theorem claim_C3_classify_total (ctx : Ctx) (h : isNullish ctx.update = false) :
    (∃ c, IndexJs.detectEventType ctx = .ok c ∧ c ∈ v1Categories) ∧
    (∀ ctx2 : Ctx, ctx2 = ctx → IndexJs.detectEventType ctx2 = IndexJs.detectEventType ctx) := by
  refine ⟨?_, fun ctx2 h2 => h2 ▸ rfl⟩
  have hmem : ∀ u : Jx, IndexJs.detectEventTypeCore u ∈ v1Categories := by
    intro u
    unfold IndexJs.detectEventTypeCore
    repeat refine mem_ite_of_mem (by decide) ?_
    decide
  obtain ⟨u, f, c⟩ := ctx
  cases u with
  | null => simp [isNullish] at h
  | undef => simp [isNullish] at h
  | bool b => exact ⟨_, rfl, hmem _⟩
  | num n => exact ⟨_, rfl, hmem _⟩
  | str s => exact ⟨_, rfl, hmem _⟩
  | arr l => exact ⟨_, rfl, hmem _⟩
  | obj es => exact ⟨_, rfl, hmem _⟩

/-- C3 witness: a present-but-unrecognizable update classifies as a
category of the enumeration (namely `"unknown"`). -/
theorem claim_C3_classify_total_witness :
    (∃ c, IndexJs.detectEventType ⟨.obj [], .undef, .undef⟩ = .ok c ∧ c ∈ v1Categories) ∧
    (∀ ctx2 : Ctx, ctx2 = ⟨.obj [], .undef, .undef⟩ →
      IndexJs.detectEventType ctx2 = IndexJs.detectEventType ⟨.obj [], .undef, .undef⟩) :=
  claim_C3_classify_total ⟨.obj [], .undef, .undef⟩ rfl

/-- C3 counterexample: with the `update` field absent the classifier does
not return a category at all — reading `update.message` throws a
TypeError — refuting totality as claimed. -/
theorem claim_C3_counterexample :
    IndexJs.detectEventType ⟨.undef, .undef, .undef⟩ = .error () ∧
    ¬ ∃ c, IndexJs.detectEventType ⟨.undef, .undef, .undef⟩ = .ok c := by
  refine ⟨rfl, ?_⟩
  rintro ⟨c, h⟩
  rw [show IndexJs.detectEventType ⟨.undef, .undef, .undef⟩ = .error () from rfl] at h
  exact Except.noConfusion h

/-- A truthy property read forces the receiver to be an object. -/
theorem truthy_getOpt_obj {m : Jx} {k : String} (h : truthy (getOpt m k) = true) :
    ∃ es, m = .obj es := by
  cases m with
  | obj es => exact ⟨es, rfl⟩
  | null => simp [getOpt, truthy] at h
  | undef => simp [getOpt, truthy] at h
  | bool b => simp [getOpt, truthy] at h
  | num n => simp [getOpt, truthy] at h
  | str s => simp [getOpt, truthy] at h
  | arr l => simp [getOpt, truthy] at h

/-- A property read that produced an object forces the receiver to be an
object. -/
theorem getOpt_eq_obj {u : Jx} {k : String} {es : List (String × Jx)}
    (h : getOpt u k = .obj es) : ∃ ues, u = .obj ues := by
  cases u with
  | obj ues => exact ⟨ues, rfl⟩
  | null => simp [getOpt] at h
  | undef => simp [getOpt] at h
  | bool b => simp [getOpt] at h
  | num n => simp [getOpt] at h
  | str s => simp [getOpt] at h
  | arr l => simp [getOpt] at h

/-- Any update whose message carries a truthy `successful_payment` marker
is classified `successful_payment` by the second classifier. -/
theorem IndexJsB.detect_sp (ctx : Ctx)
    (hsp : truthy (getOpt ctx.message "successful_payment") = true) :
    IndexJsB.detectEventType ctx = .ok "successful_payment" := by
  obtain ⟨mes, hm⟩ := truthy_getOpt_obj hsp
  rw [Ctx.message] at hm hsp
  obtain ⟨ues, hu⟩ := getOpt_eq_obj hm
  obtain ⟨u, f, ch⟩ := ctx
  simp only at hm hsp hu
  subst hu
  show Except.ok (IndexJsB.detectEventTypeCore (.obj ues)) = .ok "successful_payment"
  congr 1
  unfold IndexJsB.detectEventTypeCore
  rw [hm] at hsp
  rw [hm]
  rw [if_pos (show truthy (Jx.obj mes) = true from rfl), if_pos hsp]

/-- C4: a raw event whose message satisfies both the `successful_payment`
predicate and the `text` predicate is classified as the higher-priority
category `successful_payment` (predicates are evaluated in source order
and the first match wins; `src/index.js` lines 233-266). -/
theorem claim_C4_priority_successful_payment (ctx : Ctx)
    (hsp : truthy (getOpt ctx.message "successful_payment") = true)
    (htext : truthy (getOpt ctx.message "text") = true) :
    IndexJsB.detectEventType ctx = .ok "successful_payment" :=
  IndexJsB.detect_sp ctx hsp

/-- C4 witness: a concrete message carrying both a successful payment and
text classifies as `successful_payment`. -/
theorem claim_C4_priority_successful_payment_witness :
    IndexJsB.detectEventType
      ⟨.obj [("message", .obj [("successful_payment", .obj [("currency", .str "USD")]),
                               ("text", .str "hi")])], .undef, .undef⟩
      = .ok "successful_payment" :=
  claim_C4_priority_successful_payment
    ⟨.obj [("message", .obj [("successful_payment", .obj [("currency", .str "USD")]),
                             ("text", .str "hi")])], .undef, .undef⟩
    rfl rfl

/-- For an arbitrary string, the character count of `toList` is the
string's length. -/
theorem toList_length (s : String) : s.toList.length = s.length := by
  obtain ⟨d⟩ := s
  rfl

/-- Slicing a string that is longer than the bound yields exactly the
bound. -/
theorem jsSlice_length_of_lt {s : String} {max : Nat} (h : max < s.length) :
    (jsSlice s max).length = max := by
  rw [jsSlice, String.length_mk, List.length_take]
  rw [toList_length]
  omega

/-- C5: for every string strictly longer than the configured maximum, the
redactors return exactly `maxLength` characters (`safeText` of
`src/index.js` line 135-136 and of `src/unnamed/part_000` lines 127-132),
or exactly `maxLength` plus the 14-character `...[truncated]` marker
(`sanitizeUpdate`'s string rule, `src/unnamed/part_000` lines 211-216) —
never longer. -/
theorem claim_C5_redactor_length (s : String) (max : Nat) (h : max < s.length) :
    (IndexJs.safeText (.str s) max = .str (jsSlice s max) ∧ (jsSlice s max).length = max) ∧
    (Part000.safeText (.str s) max = .str (jsSlice s max)) ∧
    (Part000.truncateText max s = jsSlice s max ++ "...[truncated]" ∧
      (Part000.truncateText max s).length = max + 14) := by
  refine ⟨⟨rfl, jsSlice_length_of_lt h⟩, rfl, ?_, ?_⟩
  · rw [Part000.truncateText, if_pos h]
  · rw [Part000.truncateText, if_pos h, String.length_append, jsSlice_length_of_lt h]
    rfl

/-- C5 witness: a 11-character string against a bound of 5. -/
theorem claim_C5_redactor_length_witness :
    (IndexJs.safeText (.str "Hello world") 5 = .str (jsSlice "Hello world" 5) ∧
      (jsSlice "Hello world" 5).length = 5) ∧
    (Part000.safeText (.str "Hello world") 5 = .str (jsSlice "Hello world" 5)) ∧
    (Part000.truncateText 5 "Hello world" = jsSlice "Hello world" 5 ++ "...[truncated]" ∧
      (Part000.truncateText 5 "Hello world").length = 5 + 14) :=
  claim_C5_redactor_length "Hello world" 5 (by decide)

/-- C7 counterexample: the `index.js` redactor does not serialize objects —
it maps every non-string (objects included) to null, so the claim's
"serialized then truncated" branch fails on it. -/
theorem claim_C7_counterexample :
    IndexJs.safeText (.obj [("a", .num 1)]) 500 = .null ∧
    ¬ ∃ s, IndexJs.safeText (.obj [("a", .num 1)]) 500 = .str s := by
  refine ⟨rfl, ?_⟩
  rintro ⟨s, hs⟩
  rw [show IndexJs.safeText (.obj [("a", .num 1)]) 500 = .null from rfl] at hs
  exact Jx.noConfusion hs

/-- C7 (amended): the `part_000` redactor truncates strings by character
slicing, serializes non-null objects (arrays included) compactly and then
truncates, and maps null/undefined to null; the `index.js` redactor
truncates strings the same way and maps null/undefined to null, but maps
every other value — objects included — to null instead of serializing it. -/
theorem claim_C7_redactor_cases :
    (∀ s max, Part000.safeText (.str s) max = .str (jsSlice s max)) ∧
    (∀ es max, Part000.safeText (.obj es) max = .str (jsSlice (jstr (.obj es)) max)) ∧
    (∀ l max, Part000.safeText (.arr l) max = .str (jsSlice (jstr (.arr l)) max)) ∧
    (∀ max, Part000.safeText .null max = .null ∧ Part000.safeText .undef max = .null ∧
      IndexJs.safeText .null max = .null ∧ IndexJs.safeText .undef max = .null) ∧
    (∀ s max, IndexJs.safeText (.str s) max = .str (jsSlice s max)) ∧
    (∀ v max, (∀ s, v ≠ .str s) → IndexJs.safeText v max = .null) := by
  refine ⟨fun s max => rfl, fun es max => rfl, fun l max => rfl,
    fun max => ⟨rfl, rfl, rfl, rfl⟩, fun s max => rfl, fun v max hv => ?_⟩
  cases v with
  | str s => exact absurd rfl (hv s)
  | null => rfl
  | undef => rfl
  | bool b => rfl
  | num n => rfl
  | arr l => rfl
  | obj es => rfl

/-- C7 witness: the non-string branch of the `index.js` redactor applied
to a number. -/
theorem claim_C7_redactor_cases_witness :
    IndexJs.safeText (.num 7) 500 = .null :=
  claim_C7_redactor_cases.2.2.2.2.2 (.num 7) 500 (fun s h => Jx.noConfusion h)

/-- C10: both pruners remove only nullish values — falsy non-null scalars
(`0`, `false`, the empty string) are left unchanged, survive as array
elements, and survive as object values, at each level of the recursion. -/
theorem claim_C10_falsy_scalars (v : Jx) (h : primNonNull v = true) :
    (IndexJs.removeNulls v = v ∧ Part000.removeNulls v = v) ∧
    (∀ l : List Jx, v ∈ l → ∃ l', IndexJs.removeNulls (.arr l) = .arr l' ∧ v ∈ l') ∧
    (∀ l : List Jx, v ∈ l → ∃ l', Part000.removeNulls (.arr l) = .arr l' ∧ v ∈ l') ∧
    (∀ (es : List (String × Jx)) (k : String), (k, v) ∈ es →
      ∃ es', IndexJs.removeNulls (.obj es) = .obj es' ∧ (k, v) ∈ es') ∧
    (∀ (es : List (String × Jx)) (k : String), (k, v) ∈ es →
      ∃ es', Part000.removeNulls (.obj es) = .obj es' ∧ (k, v) ∈ es') := by
  have hv1 : IndexJs.removeNulls v = v := by
    cases v with
    | bool b => rfl
    | num n => rfl
    | str s => rfl
    | null => simp [primNonNull] at h
    | undef => simp [primNonNull] at h
    | arr l => simp [primNonNull] at h
    | obj es => simp [primNonNull] at h
  have hv3 : Part000.removeNulls v = v := by
    cases v with
    | bool b => rfl
    | num n => rfl
    | str s => rfl
    | null => simp [primNonNull] at h
    | undef => simp [primNonNull] at h
    | arr l => simp [primNonNull] at h
    | obj es => simp [primNonNull] at h
  have hnn : isNullish v = false := by
    cases v with
    | bool b => rfl
    | num n => rfl
    | str s => rfl
    | null => simp [primNonNull] at h
    | undef => simp [primNonNull] at h
    | arr l => rfl
    | obj es => rfl
  have hne : isEmptyArr v = false := by
    cases v with
    | bool b => rfl
    | num n => rfl
    | str s => rfl
    | null => rfl
    | undef => rfl
    | arr l => simp [primNonNull] at h
    | obj es => rfl
  refine ⟨⟨hv1, hv3⟩, ?_, ?_, ?_, ?_⟩
  · intro l hvl
    refine ⟨_, by rw [IndexJs.removeNulls, IndexJs.removeNullsList_eq_map], ?_⟩
    exact List.mem_filter.mpr ⟨List.mem_map.mpr ⟨v, hvl, hv1⟩, by rw [hnn]; rfl⟩
  · intro l hvl
    refine ⟨_, by rw [Part000.removeNulls, Part000.removeNullsList_map_eq], ?_⟩
    exact List.mem_map.mpr ⟨v, hvl, hv3⟩
  · intro es k hkv
    have hmem : (k, v) ∈ (es.map (fun kv => (kv.1, IndexJs.removeNulls kv.2))).filter
        (fun kv => !(isNullish kv.2) && !(isEmptyArr kv.2)) := by
      refine List.mem_filter.mpr ⟨List.mem_map.mpr ⟨(k, v), hkv, ?_⟩, ?_⟩
      · simp only [hv1]
      · simp only [hnn, hne]
        rfl
    have hemp : ((es.map (fun kv => (kv.1, IndexJs.removeNulls kv.2))).filter
        (fun kv => !(isNullish kv.2) && !(isEmptyArr kv.2))).isEmpty = false := by
      cases hc : ((es.map (fun kv => (kv.1, IndexJs.removeNulls kv.2))).filter
          (fun kv => !(isNullish kv.2) && !(isEmptyArr kv.2))).isEmpty
      · rfl
      · rw [List.isEmpty_iff] at hc
        rw [hc] at hmem
        exact absurd hmem (List.not_mem_nil _)
    refine ⟨_, ?_, hmem⟩
    rw [IndexJs.removeNulls, IndexJs.removeNullsEntries_eq_map]
    simp only [hemp]
    rfl
  · intro es k hkv
    refine ⟨_, by rw [Part000.removeNulls, Part000.removeNullsEntries_map_eq], ?_⟩
    refine List.mem_filter.mpr ⟨List.mem_map.mpr ⟨(k, v), hkv, ?_⟩, ?_⟩
    · simp only [hv3]
    · simp only [hnn]
      rfl

/-- C10 witness: the falsy number `0` survives pruning alone and as an
object value. -/
theorem claim_C10_falsy_scalars_witness :
    (IndexJs.removeNulls (.num 0) = .num 0 ∧ Part000.removeNulls (.num 0) = .num 0) ∧
    (∃ es', IndexJs.removeNulls (.obj [("n", .num 0)]) = .obj es' ∧ ("n", .num 0) ∈ es') :=
  ⟨(claim_C10_falsy_scalars (.num 0) rfl).1,
   (claim_C10_falsy_scalars (.num 0) rfl).2.2.2.1 [("n", .num 0)] "n"
     (List.mem_singleton.mpr rfl)⟩

/-- Pruning an object always yields an object in the `part_000` variant. -/
theorem Part000.removeNulls_obj_shape (es : List (String × Jx)) :
    ∃ oes, Part000.removeNulls (.obj es) = .obj oes := by
  rw [Part000.removeNulls]
  exact ⟨_, rfl⟩

/-- Inversion for entries of a pruned object in the `part_000` variant:
every surviving entry comes from a source entry with the same key, prunes
to the surviving value, and that value is not nullish. -/
theorem Part000.removeNulls_obj_inv {es oes : List (String × Jx)}
    (h : Part000.removeNulls (.obj es) = .obj oes) {k : String} {v : Jx}
    (hm : (k, v) ∈ oes) :
    ∃ w, (k, w) ∈ es ∧ Part000.removeNulls w = v ∧ isNullish v = false := by
  rw [Part000.removeNulls, Part000.removeNullsEntries_map_eq] at h
  injection h with h
  subst h
  obtain ⟨hmap, hcond⟩ := List.mem_filter.mp hm
  obtain ⟨⟨k2, w⟩, hw, heq⟩ := List.mem_map.mp hmap
  simp only [Prod.mk.injEq] at heq
  obtain ⟨hk, hv⟩ := heq
  subst hk
  exact ⟨w, hw, hv, by simpa using hcond⟩

/-- C9: when sanitization of the raw update throws during snapshot
construction, `safeCtx` of `src/unnamed/part_000` (lines 185-194) recovers
at that boundary: the record equals the one composed with the snapshot
disabled — identity and extracted fields are still produced — and no
`raw_update` key survives pruning. -/
theorem claim_C9_sanitize_failure_recovered (ctx : Ctx) (bot : Jx) (max : Nat)
    (h : Part000.sanitizeUpdate ctx.update max = .error ()) :
    Part000.safeCtx ctx bot true max = Part000.safeCtx ctx bot false max ∧
    (∃ oes, Part000.safeCtx ctx bot true max = .obj oes ∧
      ∀ v, ("raw_update", v) ∉ oes) := by
  constructor
  · simp only [Part000.safeCtx, Part000.payload, h, if_true, if_false,
      ite_true, ite_false, Bool.false_eq_true]
  · obtain ⟨oes, hoes⟩ := Part000.removeNulls_obj_shape
      (Part000.payload ctx bot true max)
    refine ⟨oes, hoes, ?_⟩
    intro v hv
    obtain ⟨w, hwmem, hwval, hcond⟩ := Part000.removeNulls_obj_inv hoes hv
    simp only [Part000.payload, List.mem_cons, List.not_mem_nil, or_false,
      Prod.mk.injEq] at hwmem
    rcases hwmem with ⟨hk, _⟩ | ⟨hk, _⟩ | ⟨hk, _⟩ | ⟨hk, _⟩ | ⟨hk, _⟩ | ⟨hk, _⟩ |
      ⟨hk, _⟩ | ⟨_, hw⟩
    · exact absurd hk (by decide)
    · exact absurd hk (by decide)
    · exact absurd hk (by decide)
    · exact absurd hk (by decide)
    · exact absurd hk (by decide)
    · exact absurd hk (by decide)
    · exact absurd hk (by decide)
    · rw [h] at hw
      simp only [ite_true, if_true] at hw
      subst hw
      rw [← hwval] at hcond
      exact absurd hcond (by decide)

/-- C9 witness: a photo array containing `null` makes the sanitizer throw,
and the composed record is the same as with the snapshot disabled. -/
theorem claim_C9_sanitize_failure_recovered_witness :
    Part000.safeCtx ⟨.obj [("message", .obj [("photo", .arr [.null])])], .undef, .undef⟩
        .undef true 500
      = Part000.safeCtx ⟨.obj [("message", .obj [("photo", .arr [.null])])], .undef, .undef⟩
        .undef false 500 ∧
    (∃ oes, Part000.safeCtx ⟨.obj [("message", .obj [("photo", .arr [.null])])], .undef, .undef⟩
        .undef true 500 = .obj oes ∧ ∀ v, ("raw_update", v) ∉ oes) :=
  claim_C9_sanitize_failure_recovered
    ⟨.obj [("message", .obj [("photo", .arr [.null])])], .undef, .undef⟩ .undef 500 rfl

/-- Unfolding for a successful `Except` bind. -/
theorem exc_bind_ok {ε α β : Type} (a : α) (f : α → Except ε β) :
    (Except.ok a : Except ε α) >>= f = f a := rfl

/-- Unfolding for a failed `Except` bind. -/
theorem exc_bind_error {ε α β : Type} (e : ε) (f : α → Except ε β) :
    (Except.error e : Except ε α) >>= f = Except.error e := rfl

/-- A successful identifier-pair projection yields exactly the pair. -/
theorem idPair_shape {v p : Jx} (h : idPair v = .ok p) : isIdPair p = true := by
  cases v with
  | null => exact Except.noConfusion (show (Except.error () : Except Unit Jx) = .ok p from h)
  | undef => exact Except.noConfusion (show (Except.error () : Except Unit Jx) = .ok p from h)
  | bool b =>
      have h2 : Except.ok (Jx.obj [("file_id", Jx.undef), ("file_unique_id", Jx.undef)])
          = Except.ok p := h
      injection h2 with h2
      rw [← h2]
      rfl
  | num n =>
      have h2 : Except.ok (Jx.obj [("file_id", Jx.undef), ("file_unique_id", Jx.undef)])
          = Except.ok p := h
      injection h2 with h2
      rw [← h2]
      rfl
  | str s2 =>
      have h2 : Except.ok (Jx.obj [("file_id", Jx.undef), ("file_unique_id", Jx.undef)])
          = Except.ok p := h
      injection h2 with h2
      rw [← h2]
      rfl
  | arr l =>
      have h2 : Except.ok (Jx.obj [("file_id", Jx.undef), ("file_unique_id", Jx.undef)])
          = Except.ok p := h
      injection h2 with h2
      rw [← h2]
      rfl
  | obj fs =>
      have h2 : Except.ok (Jx.obj [("file_id", (List.lookup "file_id" fs).getD .undef),
          ("file_unique_id", (List.lookup "file_unique_id" fs).getD .undef)])
          = Except.ok p := h
      injection h2 with h2
      rw [← h2]
      rfl

/-- A successful element-wise identifier-pair mapping yields pairs only,
with order and length preserved. -/
theorem idPairList_spec :
    ∀ {l pairs : List Jx}, idPairList l = .ok pairs →
      pairs.all isIdPair = true ∧ pairs.length = l.length ∧
      List.Forall₂ (fun a b => idPair a = .ok b) l pairs := by
  intro l
  induction l with
  | nil =>
      intro pairs h
      rw [idPairList] at h
      injection h with h
      rw [← h]
      exact ⟨rfl, rfl, List.Forall₂.nil⟩
  | cons v l ih =>
      intro pairs h
      rw [idPairList] at h
      cases hp : idPair v with
      | error e =>
          rw [hp, exc_bind_error] at h
          exact Except.noConfusion h
      | ok p =>
        rw [hp, exc_bind_ok] at h
        cases hr : idPairList l with
        | error e =>
            rw [hr, exc_bind_error] at h
            exact Except.noConfusion h
        | ok rest =>
          rw [hr, exc_bind_ok] at h
          injection h with h
          obtain ⟨hall, hlen, hfa⟩ := ih hr
          rw [← h]
          refine ⟨?_, by simp [hlen], List.Forall₂.cons hp hfa⟩
          simp only [List.all_cons, hall, idPair_shape hp, Bool.and_self]

/-- Elements produced by a successful `sanitizeList` are clean whenever
every element's own sanitization is. -/
theorem Part000.sanitizeList_cleanM (max : Nat) :
    ∀ l l', Part000.sanitizeList max l = .ok l' →
      (∀ v ∈ l, ∀ out, Part000.sanitize max v = .ok out → cleanM out = true) →
      cleanMList l' = true := by
  intro l
  induction l with
  | nil =>
      intro l' h _
      have h2 : (Except.ok [] : Except Unit (List Jx)) = .ok l' := h
      injection h2 with h2
      rw [← h2]
      rfl
  | cons v l ih =>
      intro l' h hmem
      have h2 : (Part000.sanitize max v) >>=
          (fun v2 => (Part000.sanitizeList max l) >>= (fun rest => Except.ok (v2 :: rest)))
          = .ok l' := h
      cases hv : Part000.sanitize max v with
      | error e =>
          rw [hv, exc_bind_error] at h2
          exact Except.noConfusion h2
      | ok v2 =>
        rw [hv, exc_bind_ok] at h2
        cases hl : Part000.sanitizeList max l with
        | error e =>
            rw [hl, exc_bind_error] at h2
            exact Except.noConfusion h2
        | ok rest =>
          rw [hl, exc_bind_ok] at h2
          injection h2 with h2
          rw [← h2]
          show (cleanM v2 && cleanMList rest) = true
          rw [hmem v (List.mem_cons_self v l) v2 hv,
            ih rest hl (fun w hw => hmem w (List.mem_cons_of_mem v hw))]
          rfl

/-- Entries produced by a successful `sanitizeEntries` are clean: media
keys hold `mediaClean` values, other keys hold recursively clean values. -/
theorem Part000.sanitizeEntries_cleanM (max : Nat) :
    ∀ es es', Part000.sanitizeEntries max es = .ok es' →
      (∀ kv ∈ es, ∀ out, Part000.sanitize max kv.2 = .ok out → cleanM out = true) →
      cleanMEntries es' = true := by
  intro es
  induction es with
  | nil =>
      intro es' h _
      have h2 : (Except.ok [] : Except Unit (List (String × Jx))) = .ok es' := h
      injection h2 with h2
      rw [← h2]
      rfl
  | cons kv es ih =>
      obtain ⟨k, val⟩ := kv
      intro es' h hmem
      have hrest : ∀ w ∈ es, ∀ out, Part000.sanitize max w.2 = .ok out → cleanM out = true :=
        fun w hw => hmem w (List.mem_cons_of_mem (k, val) hw)
      have hhead := hmem (k, val) (List.mem_cons_self (k, val) es)
      cases hr : Part000.sanitizeEntries max es with
      | error e =>
          cases val with
          | null =>
              have h2 : (Part000.sanitizeEntries max es) >>= (fun rest =>
                  if mediaKeys.contains k then Except.ok rest
                  else (Part000.sanitize max (Jx.null)) >>=
                    (fun v2 => Except.ok ((k, v2) :: rest))) = .ok es' := h
              rw [hr, exc_bind_error] at h2
              exact Except.noConfusion h2
          | undef =>
              have h2 : (Part000.sanitizeEntries max es) >>= (fun rest =>
                  if mediaKeys.contains k then Except.ok rest
                  else (Part000.sanitize max (Jx.undef)) >>=
                    (fun v2 => Except.ok ((k, v2) :: rest))) = .ok es' := h
              rw [hr, exc_bind_error] at h2
              exact Except.noConfusion h2
          | bool b =>
              have h2 : (Part000.sanitizeEntries max es) >>= (fun rest =>
                  if mediaKeys.contains k then Except.ok rest
                  else (Part000.sanitize max (Jx.bool b)) >>=
                    (fun v2 => Except.ok ((k, v2) :: rest))) = .ok es' := h
              rw [hr, exc_bind_error] at h2
              exact Except.noConfusion h2
          | num n =>
              have h2 : (Part000.sanitizeEntries max es) >>= (fun rest =>
                  if mediaKeys.contains k then Except.ok rest
                  else (Part000.sanitize max (Jx.num n)) >>=
                    (fun v2 => Except.ok ((k, v2) :: rest))) = .ok es' := h
              rw [hr, exc_bind_error] at h2
              exact Except.noConfusion h2
          | str s2 =>
              have h2 : (Part000.sanitizeEntries max es) >>= (fun rest =>
                  Except.ok ((k, .str (Part000.truncateText max s2)) :: rest)) = .ok es' := h
              rw [hr, exc_bind_error] at h2
              exact Except.noConfusion h2
          | arr l =>
              have h2 : (Part000.sanitizeEntries max es) >>= (fun rest =>
                  if mediaKeys.contains k then
                    (idPairList l) >>= (fun pairs => Except.ok ((k, .arr pairs) :: rest))
                  else (Part000.sanitize max (.arr l)) >>=
                    (fun v2 => Except.ok ((k, v2) :: rest))) = .ok es' := h
              rw [hr, exc_bind_error] at h2
              exact Except.noConfusion h2
          | obj fs =>
              have h2 : (Part000.sanitizeEntries max es) >>= (fun rest =>
                  if mediaKeys.contains k then
                    Except.ok ((k, .obj [("file_id", getOpt (.obj fs) "file_id"),
                      ("file_unique_id", getOpt (.obj fs) "file_unique_id")]) :: rest)
                  else (Part000.sanitize max (.obj fs)) >>=
                    (fun v2 => Except.ok ((k, v2) :: rest))) = .ok es' := h
              rw [hr, exc_bind_error] at h2
              exact Except.noConfusion h2
      | ok rest =>
        have hcr : cleanMEntries rest = true := ih rest hr hrest
        cases val with
        | str s2 =>
            have h2 : (Part000.sanitizeEntries max es) >>= (fun rest =>
                Except.ok ((k, .str (Part000.truncateText max s2)) :: rest)) = .ok es' := h
            rw [hr, exc_bind_ok] at h2
            injection h2 with h2
            rw [← h2]
            show ((if mediaKeys.contains k then mediaClean (.str (Part000.truncateText max s2))
              else cleanM (.str (Part000.truncateText max s2))) && cleanMEntries rest) = true
            rw [hcr]
            cases mediaKeys.contains k <;> rfl
        | null =>
            have h2 : (Part000.sanitizeEntries max es) >>= (fun rest =>
                if mediaKeys.contains k then Except.ok rest
                else (Part000.sanitize max (Jx.null)) >>=
                  (fun v2 => Except.ok ((k, v2) :: rest))) = .ok es' := h
            rw [hr, exc_bind_ok] at h2
            by_cases hk : mediaKeys.contains k = true
            · rw [if_pos hk] at h2
              injection h2 with h2
              rw [← h2]
              exact hcr
            · rw [if_neg hk, show Part000.sanitize max (Jx.null) = Except.ok (Jx.null) from rfl,
                exc_bind_ok] at h2
              injection h2 with h2
              rw [← h2]
              show ((if mediaKeys.contains k then mediaClean (Jx.null) else cleanM (Jx.null)) &&
                cleanMEntries rest) = true
              rw [if_neg hk, hcr]
              rfl
        | undef =>
            have h2 : (Part000.sanitizeEntries max es) >>= (fun rest =>
                if mediaKeys.contains k then Except.ok rest
                else (Part000.sanitize max (Jx.undef)) >>=
                  (fun v2 => Except.ok ((k, v2) :: rest))) = .ok es' := h
            rw [hr, exc_bind_ok] at h2
            by_cases hk : mediaKeys.contains k = true
            · rw [if_pos hk] at h2
              injection h2 with h2
              rw [← h2]
              exact hcr
            · rw [if_neg hk, show Part000.sanitize max (Jx.undef) = Except.ok (Jx.undef) from rfl,
                exc_bind_ok] at h2
              injection h2 with h2
              rw [← h2]
              show ((if mediaKeys.contains k then mediaClean (Jx.undef) else cleanM (Jx.undef)) &&
                cleanMEntries rest) = true
              rw [if_neg hk, hcr]
              rfl
        | bool b =>
            have h2 : (Part000.sanitizeEntries max es) >>= (fun rest =>
                if mediaKeys.contains k then Except.ok rest
                else (Part000.sanitize max (Jx.bool b)) >>=
                  (fun v2 => Except.ok ((k, v2) :: rest))) = .ok es' := h
            rw [hr, exc_bind_ok] at h2
            by_cases hk : mediaKeys.contains k = true
            · rw [if_pos hk] at h2
              injection h2 with h2
              rw [← h2]
              exact hcr
            · rw [if_neg hk, show Part000.sanitize max (Jx.bool b) = Except.ok (Jx.bool b) from rfl,
                exc_bind_ok] at h2
              injection h2 with h2
              rw [← h2]
              show ((if mediaKeys.contains k then mediaClean (Jx.bool b) else cleanM (Jx.bool b)) &&
                cleanMEntries rest) = true
              rw [if_neg hk, hcr]
              rfl
        | num n =>
            have h2 : (Part000.sanitizeEntries max es) >>= (fun rest =>
                if mediaKeys.contains k then Except.ok rest
                else (Part000.sanitize max (Jx.num n)) >>=
                  (fun v2 => Except.ok ((k, v2) :: rest))) = .ok es' := h
            rw [hr, exc_bind_ok] at h2
            by_cases hk : mediaKeys.contains k = true
            · rw [if_pos hk] at h2
              injection h2 with h2
              rw [← h2]
              exact hcr
            · rw [if_neg hk, show Part000.sanitize max (Jx.num n) = Except.ok (Jx.num n) from rfl,
                exc_bind_ok] at h2
              injection h2 with h2
              rw [← h2]
              show ((if mediaKeys.contains k then mediaClean (Jx.num n) else cleanM (Jx.num n)) &&
                cleanMEntries rest) = true
              rw [if_neg hk, hcr]
              rfl
        | arr l =>
            have h2 : (Part000.sanitizeEntries max es) >>= (fun rest =>
                if mediaKeys.contains k then
                  (idPairList l) >>= (fun pairs => Except.ok ((k, .arr pairs) :: rest))
                else (Part000.sanitize max (.arr l)) >>=
                  (fun v2 => Except.ok ((k, v2) :: rest))) = .ok es' := h
            rw [hr, exc_bind_ok] at h2
            by_cases hk : mediaKeys.contains k = true
            · rw [if_pos hk] at h2
              cases hp : idPairList l with
              | error e =>
                  rw [hp, exc_bind_error] at h2
                  exact Except.noConfusion h2
              | ok pairs =>
                rw [hp, exc_bind_ok] at h2
                injection h2 with h2
                rw [← h2]
                show ((if mediaKeys.contains k then mediaClean (.arr pairs)
                  else cleanM (.arr pairs)) && cleanMEntries rest) = true
                rw [if_pos hk, hcr]
                show (mediaClean (.arr pairs) && true) = true
                rw [show mediaClean (.arr pairs) = pairs.all isIdPair from rfl,
                  (idPairList_spec hp).1]
                rfl
            · rw [if_neg hk] at h2
              cases hv : Part000.sanitize max (.arr l) with
              | error e =>
                  rw [hv, exc_bind_error] at h2
                  exact Except.noConfusion h2
              | ok v2 =>
                rw [hv, exc_bind_ok] at h2
                injection h2 with h2
                rw [← h2]
                show ((if mediaKeys.contains k then mediaClean v2 else cleanM v2) &&
                  cleanMEntries rest) = true
                rw [if_neg hk, hcr, hhead v2 hv]
                rfl
        | obj fs =>
            have h2 : (Part000.sanitizeEntries max es) >>= (fun rest =>
                if mediaKeys.contains k then
                  Except.ok ((k, .obj [("file_id", getOpt (.obj fs) "file_id"),
                    ("file_unique_id", getOpt (.obj fs) "file_unique_id")]) :: rest)
                else (Part000.sanitize max (.obj fs)) >>=
                  (fun v2 => Except.ok ((k, v2) :: rest))) = .ok es' := h
            rw [hr, exc_bind_ok] at h2
            by_cases hk : mediaKeys.contains k = true
            · rw [if_pos hk] at h2
              injection h2 with h2
              rw [← h2]
              show ((if mediaKeys.contains k then
                  mediaClean (.obj [("file_id", getOpt (.obj fs) "file_id"),
                    ("file_unique_id", getOpt (.obj fs) "file_unique_id")])
                else cleanM (.obj [("file_id", getOpt (.obj fs) "file_id"),
                    ("file_unique_id", getOpt (.obj fs) "file_unique_id")])) &&
                cleanMEntries rest) = true
              rw [if_pos hk, hcr]
              rfl
            · rw [if_neg hk] at h2
              cases hv : Part000.sanitize max (.obj fs) with
              | error e =>
                  rw [hv, exc_bind_error] at h2
                  exact Except.noConfusion h2
              | ok v2 =>
                rw [hv, exc_bind_ok] at h2
                injection h2 with h2
                rw [← h2]
                show ((if mediaKeys.contains k then mediaClean v2 else cleanM v2) &&
                  cleanMEntries rest) = true
                rw [if_neg hk, hcr, hhead v2 hv]
                rfl

/-- Every tree a successful sanitization produces is deeply media-clean. -/
theorem Part000.sanitize_cleanM (max : Nat) :
    ∀ u out, Part000.sanitize max u = .ok out → cleanM out = true := by
  intro u
  induction u using Jx.indOn with
  | hnull =>
      intro out h
      have h2 : Except.ok Jx.null = .ok out := h
      injection h2 with h2
      rw [← h2]
      rfl
  | hundef =>
      intro out h
      have h2 : Except.ok Jx.undef = .ok out := h
      injection h2 with h2
      rw [← h2]
      rfl
  | hbool b =>
      intro out h
      have h2 : Except.ok (Jx.bool b) = .ok out := h
      injection h2 with h2
      rw [← h2]
      rfl
  | hnum n =>
      intro out h
      have h2 : Except.ok (Jx.num n) = .ok out := h
      injection h2 with h2
      rw [← h2]
      rfl
  | hstr s2 =>
      intro out h
      have h2 : Except.ok (Jx.str s2) = .ok out := h
      injection h2 with h2
      rw [← h2]
      rfl
  | harr l ih =>
      intro out h
      have h2 : (Part000.sanitizeList max l) >>= (fun l2 => Except.ok (Jx.arr l2))
          = .ok out := h
      cases hl : Part000.sanitizeList max l with
      | error e =>
          rw [hl, exc_bind_error] at h2
          exact Except.noConfusion h2
      | ok l2 =>
        rw [hl, exc_bind_ok] at h2
        injection h2 with h2
        rw [← h2]
        show cleanMList l2 = true
        exact Part000.sanitizeList_cleanM max l l2 hl ih
  | hobj es ih =>
      intro out h
      have h2 : (Part000.sanitizeEntries max es) >>= (fun es2 => Except.ok (Jx.obj es2))
          = .ok out := h
      cases he : Part000.sanitizeEntries max es with
      | error e =>
          rw [he, exc_bind_error] at h2
          exact Except.noConfusion h2
      | ok es2 =>
        rw [he, exc_bind_ok] at h2
        injection h2 with h2
        rw [← h2]
        show cleanMEntries es2 = true
        exact Part000.sanitizeEntries_cleanM max es es2 he ih

/-- Inversion of one `sanitizeEntries` step: the processed tail succeeds,
and the head entry is truncated (strings), mapped to identifier pairs
(media arrays/objects), dropped (media scalars), or recursively sanitized
(all other keys). -/
theorem Part000.sanitizeEntries_cons_shape (max : Nat) (k0 : String) (val : Jx)
    (es es' : List (String × Jx))
    (h : Part000.sanitizeEntries max ((k0, val) :: es) = .ok es') :
    ∃ rest, Part000.sanitizeEntries max es = .ok rest ∧
      ((∃ s2, val = .str s2 ∧ es' = (k0, .str (Part000.truncateText max s2)) :: rest) ∨
       (mediaKeys.contains k0 = true ∧ ∃ l pairs, val = .arr l ∧ idPairList l = .ok pairs ∧
         es' = (k0, .arr pairs) :: rest) ∨
       (mediaKeys.contains k0 = true ∧ ∃ fs, val = .obj fs ∧
         es' = (k0, .obj [("file_id", getOpt (.obj fs) "file_id"),
           ("file_unique_id", getOpt (.obj fs) "file_unique_id")]) :: rest) ∨
       (mediaKeys.contains k0 = true ∧ es' = rest ∧
         (val = .null ∨ val = .undef ∨ (∃ b, val = .bool b) ∨ (∃ n, val = .num n))) ∨
       (mediaKeys.contains k0 = false ∧ ∃ v2, Part000.sanitize max val = .ok v2 ∧
         es' = (k0, v2) :: rest)) := by
  cases val with
  | str s2 =>
      have h2 : (Part000.sanitizeEntries max es) >>= (fun rest =>
          Except.ok ((k0, .str (Part000.truncateText max s2)) :: rest)) = .ok es' := h
      cases hr : Part000.sanitizeEntries max es with
      | error e =>
          rw [hr, exc_bind_error] at h2
          exact Except.noConfusion h2
      | ok rest =>
        rw [hr, exc_bind_ok] at h2
        injection h2 with h2
        exact ⟨rest, rfl, Or.inl ⟨s2, rfl, h2.symm⟩⟩
  | arr l =>
      have h2 : (Part000.sanitizeEntries max es) >>= (fun rest =>
          if mediaKeys.contains k0 then
            (idPairList l) >>= (fun pairs => Except.ok ((k0, .arr pairs) :: rest))
          else (Part000.sanitize max (.arr l)) >>=
            (fun v2 => Except.ok ((k0, v2) :: rest))) = .ok es' := h
      cases hr : Part000.sanitizeEntries max es with
      | error e =>
          rw [hr, exc_bind_error] at h2
          exact Except.noConfusion h2
      | ok rest =>
        rw [hr, exc_bind_ok] at h2
        refine ⟨rest, rfl, ?_⟩
        by_cases hk : mediaKeys.contains k0 = true
        · rw [if_pos hk] at h2
          cases hp : idPairList l with
          | error e =>
              rw [hp, exc_bind_error] at h2
              exact Except.noConfusion h2
          | ok pairs =>
            rw [hp, exc_bind_ok] at h2
            injection h2 with h2
            exact Or.inr (Or.inl ⟨hk, l, pairs, rfl, hp, h2.symm⟩)
        · rw [if_neg hk] at h2
          cases hv : Part000.sanitize max (.arr l) with
          | error e =>
              rw [hv, exc_bind_error] at h2
              exact Except.noConfusion h2
          | ok v2 =>
            rw [hv, exc_bind_ok] at h2
            injection h2 with h2
            exact Or.inr (Or.inr (Or.inr (Or.inr
              ⟨(by simpa using hk), v2, rfl, h2.symm⟩)))
  | obj fs =>
      have h2 : (Part000.sanitizeEntries max es) >>= (fun rest =>
          if mediaKeys.contains k0 then
            Except.ok ((k0, .obj [("file_id", getOpt (.obj fs) "file_id"),
              ("file_unique_id", getOpt (.obj fs) "file_unique_id")]) :: rest)
          else (Part000.sanitize max (.obj fs)) >>=
            (fun v2 => Except.ok ((k0, v2) :: rest))) = .ok es' := h
      cases hr : Part000.sanitizeEntries max es with
      | error e =>
          rw [hr, exc_bind_error] at h2
          exact Except.noConfusion h2
      | ok rest =>
        rw [hr, exc_bind_ok] at h2
        refine ⟨rest, rfl, ?_⟩
        by_cases hk : mediaKeys.contains k0 = true
        · rw [if_pos hk] at h2
          injection h2 with h2
          exact Or.inr (Or.inr (Or.inl ⟨hk, fs, rfl, h2.symm⟩))
        · rw [if_neg hk] at h2
          cases hv : Part000.sanitize max (.obj fs) with
          | error e =>
              rw [hv, exc_bind_error] at h2
              exact Except.noConfusion h2
          | ok v2 =>
            rw [hv, exc_bind_ok] at h2
            injection h2 with h2
            exact Or.inr (Or.inr (Or.inr (Or.inr
              ⟨(by simpa using hk), v2, rfl, h2.symm⟩)))
  | null =>
      have h2 : (Part000.sanitizeEntries max es) >>= (fun rest =>
          if mediaKeys.contains k0 then Except.ok rest
          else (Part000.sanitize max .null) >>=
            (fun v2 => Except.ok ((k0, v2) :: rest))) = .ok es' := h
      cases hr : Part000.sanitizeEntries max es with
      | error e =>
          rw [hr, exc_bind_error] at h2
          exact Except.noConfusion h2
      | ok rest =>
        rw [hr, exc_bind_ok] at h2
        refine ⟨rest, rfl, ?_⟩
        by_cases hk : mediaKeys.contains k0 = true
        · rw [if_pos hk] at h2
          injection h2 with h2
          exact Or.inr (Or.inr (Or.inr (Or.inl ⟨hk, h2.symm, Or.inl rfl⟩)))
        · rw [if_neg hk, show Part000.sanitize max .null = Except.ok .null from rfl,
            exc_bind_ok] at h2
          injection h2 with h2
          exact Or.inr (Or.inr (Or.inr (Or.inr
            ⟨(by simpa using hk), .null, rfl, h2.symm⟩)))
  | undef =>
      have h2 : (Part000.sanitizeEntries max es) >>= (fun rest =>
          if mediaKeys.contains k0 then Except.ok rest
          else (Part000.sanitize max .undef) >>=
            (fun v2 => Except.ok ((k0, v2) :: rest))) = .ok es' := h
      cases hr : Part000.sanitizeEntries max es with
      | error e =>
          rw [hr, exc_bind_error] at h2
          exact Except.noConfusion h2
      | ok rest =>
        rw [hr, exc_bind_ok] at h2
        refine ⟨rest, rfl, ?_⟩
        by_cases hk : mediaKeys.contains k0 = true
        · rw [if_pos hk] at h2
          injection h2 with h2
          exact Or.inr (Or.inr (Or.inr (Or.inl ⟨hk, h2.symm, Or.inr (Or.inl rfl)⟩)))
        · rw [if_neg hk, show Part000.sanitize max .undef = Except.ok .undef from rfl,
            exc_bind_ok] at h2
          injection h2 with h2
          exact Or.inr (Or.inr (Or.inr (Or.inr
            ⟨(by simpa using hk), .undef, rfl, h2.symm⟩)))
  | bool b =>
      have h2 : (Part000.sanitizeEntries max es) >>= (fun rest =>
          if mediaKeys.contains k0 then Except.ok rest
          else (Part000.sanitize max (.bool b)) >>=
            (fun v2 => Except.ok ((k0, v2) :: rest))) = .ok es' := h
      cases hr : Part000.sanitizeEntries max es with
      | error e =>
          rw [hr, exc_bind_error] at h2
          exact Except.noConfusion h2
      | ok rest =>
        rw [hr, exc_bind_ok] at h2
        refine ⟨rest, rfl, ?_⟩
        by_cases hk : mediaKeys.contains k0 = true
        · rw [if_pos hk] at h2
          injection h2 with h2
          exact Or.inr (Or.inr (Or.inr (Or.inl ⟨hk, h2.symm, Or.inr (Or.inr (Or.inl ⟨b, rfl⟩))⟩)))
        · rw [if_neg hk, show Part000.sanitize max (.bool b) = Except.ok (.bool b) from rfl,
            exc_bind_ok] at h2
          injection h2 with h2
          exact Or.inr (Or.inr (Or.inr (Or.inr
            ⟨(by simpa using hk), .bool b, rfl, h2.symm⟩)))
  | num n =>
      have h2 : (Part000.sanitizeEntries max es) >>= (fun rest =>
          if mediaKeys.contains k0 then Except.ok rest
          else (Part000.sanitize max (.num n)) >>=
            (fun v2 => Except.ok ((k0, v2) :: rest))) = .ok es' := h
      cases hr : Part000.sanitizeEntries max es with
      | error e =>
          rw [hr, exc_bind_error] at h2
          exact Except.noConfusion h2
      | ok rest =>
        rw [hr, exc_bind_ok] at h2
        refine ⟨rest, rfl, ?_⟩
        by_cases hk : mediaKeys.contains k0 = true
        · rw [if_pos hk] at h2
          injection h2 with h2
          exact Or.inr (Or.inr (Or.inr (Or.inl ⟨hk, h2.symm,
            Or.inr (Or.inr (Or.inr ⟨n, rfl⟩))⟩)))
        · rw [if_neg hk, show Part000.sanitize max (.num n) = Except.ok (.num n) from rfl,
            exc_bind_ok] at h2
          injection h2 with h2
          exact Or.inr (Or.inr (Or.inr (Or.inr
            ⟨(by simpa using hk), .num n, rfl, h2.symm⟩)))

/-- Media-keyed array and object entries of a sanitized object are mapped
to identifier pairs and survive in the output. -/
theorem Part000.sanitizeEntries_media (max : Nat) :
    ∀ es es', Part000.sanitizeEntries max es = .ok es' →
      (∀ k l, (k, Jx.arr l) ∈ es → mediaKeys.contains k = true →
        ∃ l', idPairList l = .ok l' ∧ (k, Jx.arr l') ∈ es') ∧
      (∀ k fs, (k, Jx.obj fs) ∈ es → mediaKeys.contains k = true →
        (k, Jx.obj [("file_id", getOpt (.obj fs) "file_id"),
          ("file_unique_id", getOpt (.obj fs) "file_unique_id")]) ∈ es') := by
  intro es
  induction es with
  | nil =>
      intro es' _
      exact ⟨fun k l hm => absurd hm (List.not_mem_nil _),
             fun k fs hm => absurd hm (List.not_mem_nil _)⟩
  | cons kv es ih =>
      obtain ⟨k0, val⟩ := kv
      intro es' h
      obtain ⟨rest, hr, hshape⟩ := Part000.sanitizeEntries_cons_shape max k0 val es es' h
      obtain ⟨ih1, ih2⟩ := ih rest hr
      have hsub : ∀ x, x ∈ rest → x ∈ es' := by
        rcases hshape with ⟨s2, _, hes⟩ | ⟨_, l0, pairs, _, _, hes⟩ | ⟨_, fs, _, hes⟩ |
          ⟨_, hes, _⟩ | ⟨_, v2, _, hes⟩
        · rw [hes]
          exact fun x hx => List.mem_cons_of_mem _ hx
        · rw [hes]
          exact fun x hx => List.mem_cons_of_mem _ hx
        · rw [hes]
          exact fun x hx => List.mem_cons_of_mem _ hx
        · rw [hes]
          exact fun x hx => hx
        · rw [hes]
          exact fun x hx => List.mem_cons_of_mem _ hx
      constructor
      · intro k l hm hk
        rcases List.mem_cons.mp hm with heq | htail
        · rw [Prod.mk.injEq] at heq
          obtain ⟨hkk, hvv⟩ := heq
          subst hkk
          subst hvv
          rcases hshape with ⟨s2, hval, _⟩ | ⟨_, l0, pairs, hval, hp, hes⟩ |
            ⟨_, fs, hval, _⟩ | ⟨_, _, hbad⟩ | ⟨hk0, _⟩
          · exact Jx.noConfusion hval
          · injection hval with hll
            subst hll
            rw [hes]
            exact ⟨pairs, hp, List.mem_cons_self _ _⟩
          · exact Jx.noConfusion hval
          · rcases hbad with hb | hb | ⟨b, hb⟩ | ⟨n, hb⟩ <;> exact Jx.noConfusion hb
          · rw [hk] at hk0
            exact Bool.noConfusion hk0
        · obtain ⟨l', hp, hmem⟩ := ih1 k l htail hk
          exact ⟨l', hp, hsub _ hmem⟩
      · intro k fs hm hk
        rcases List.mem_cons.mp hm with heq | htail
        · rw [Prod.mk.injEq] at heq
          obtain ⟨hkk, hvv⟩ := heq
          subst hkk
          subst hvv
          rcases hshape with ⟨s2, hval, _⟩ | ⟨_, l0, pairs, hval, _, _⟩ |
            ⟨_, fs0, hval, hes⟩ | ⟨_, _, hbad⟩ | ⟨hk0, _⟩
          · exact Jx.noConfusion hval
          · exact Jx.noConfusion hval
          · injection hval with hff
            subst hff
            rw [hes]
            exact List.mem_cons_self _ _
          · rcases hbad with hb | hb | ⟨b, hb⟩ | ⟨n, hb⟩ <;> exact Jx.noConfusion hb
          · rw [hk] at hk0
            exact Bool.noConfusion hk0
        · exact hsub _ (ih2 k fs htail hk)

/-- C6: for every media-like field of a raw event object, the sanitizer's
output for that field carries nothing but the identifier pair: deeply, any
media-named key of the output holds a truncated string (no sub-fields at
all), a lone `file_id`/`file_unique_id` pair, or an array of such pairs;
and an array-valued media field maps element-wise to identifier pairs with
order and length preserved, while an object-valued one maps to its single
identifier pair. -/
theorem claim_C6_media_only_id_pair (max : Nat) (u out : Jx)
    (h : Part000.sanitizeUpdate u max = .ok out) :
    cleanM out = true ∧
    (∀ es, u = .obj es → ∃ oes, out = .obj oes ∧
      (∀ k l, (k, Jx.arr l) ∈ es → mediaKeys.contains k = true →
        ∃ l', (k, Jx.arr l') ∈ oes ∧ l'.length = l.length ∧
          List.Forall₂ (fun a b => idPair a = .ok b) l l') ∧
      (∀ k fs, (k, Jx.obj fs) ∈ es → mediaKeys.contains k = true →
        (k, Jx.obj [("file_id", getOpt (.obj fs) "file_id"),
          ("file_unique_id", getOpt (.obj fs) "file_unique_id")]) ∈ oes)) := by
  refine ⟨Part000.sanitize_cleanM max u out h, ?_⟩
  intro es hu
  subst hu
  have h2 : (Part000.sanitizeEntries max es) >>= (fun es2 => Except.ok (Jx.obj es2))
      = .ok out := h
  cases he : Part000.sanitizeEntries max es with
  | error e =>
      rw [he, exc_bind_error] at h2
      exact Except.noConfusion h2
  | ok oes =>
    rw [he, exc_bind_ok] at h2
    injection h2 with h2
    obtain ⟨m1, m2⟩ := Part000.sanitizeEntries_media max es oes he
    refine ⟨oes, h2.symm, ?_, m2⟩
    intro k l hm hk
    obtain ⟨l', hp, hmem⟩ := m1 k l hm hk
    obtain ⟨_, hlen, hfa⟩ := idPairList_spec hp
    exact ⟨l', hmem, hlen, hfa⟩

/-- C6 witness: scenario C — a photo array of two items with extraneous
fields sanitizes successfully and the output is deeply media-clean. -/
theorem claim_C6_media_only_id_pair_witness :
    ∃ out, Part000.sanitizeUpdate
      (.obj [("photo", .arr [
        .obj [("file_id", .str "a"), ("file_unique_id", .str "b"), ("width", .num 100),
              ("height", .num 80), ("file_size", .num 999)],
        .obj [("file_id", .str "c"), ("file_unique_id", .str "d"), ("width", .num 200)]])])
      500 = .ok out ∧ cleanM out = true := by
  obtain ⟨out, hout⟩ : ∃ out, Part000.sanitizeUpdate
      (.obj [("photo", .arr [
        .obj [("file_id", .str "a"), ("file_unique_id", .str "b"), ("width", .num 100),
              ("height", .num 80), ("file_size", .num 999)],
        .obj [("file_id", .str "c"), ("file_unique_id", .str "d"), ("width", .num 200)]])])
      500 = .ok out := ⟨_, rfl⟩
  exact ⟨out, hout, (claim_C6_media_only_id_pair 500 _ out hout).1⟩

/-- Non-null scalars are fixed points of the `index.js` pruner. -/
theorem IndexJs.removeNulls_prim {v : Jx} (h : primNonNull v = true) :
    IndexJs.removeNulls v = v := by
  cases v with
  | bool b => rfl
  | num n => rfl
  | str s2 => rfl
  | null => simp [primNonNull] at h
  | undef => simp [primNonNull] at h
  | arr l => simp [primNonNull] at h
  | obj es => simp [primNonNull] at h

/-- Nullishness test on non-null scalars. -/
theorem primNonNull_not_nullish {v : Jx} (h : primNonNull v = true) :
    isNullish v = false := by
  cases v with
  | bool b => rfl
  | num n => rfl
  | str s2 => rfl
  | null => simp [primNonNull] at h
  | undef => simp [primNonNull] at h
  | arr l => simp [primNonNull] at h
  | obj es => simp [primNonNull] at h

/-- Emptiness test on non-null scalars. -/
theorem primNonNull_not_emptyArr {v : Jx} (h : primNonNull v = true) :
    isEmptyArr v = false := by
  cases v with
  | bool b => rfl
  | num n => rfl
  | str s2 => rfl
  | null => simp [primNonNull] at h
  | undef => simp [primNonNull] at h
  | arr l => simp [primNonNull] at h
  | obj es => simp [primNonNull] at h

/-- The `index.js` pruner leaves a non-empty object of non-null scalars
unchanged. -/
theorem IndexJs.removeNulls_obj_of_prim {es : List (String × Jx)} (hne : es ≠ [])
    (h : ∀ kv ∈ es, primNonNull kv.2 = true) :
    IndexJs.removeNulls (.obj es) = .obj es := by
  rw [IndexJs.removeNulls, IndexJs.removeNullsEntries_eq_map]
  have hmap : es.map (fun kv => (kv.1, IndexJs.removeNulls kv.2)) = es := by
    rw [List.map_congr_left (g := id), List.map_id]
    intro kv hkv
    obtain ⟨k, v⟩ := kv
    simp only [id_eq, Prod.mk.injEq, true_and]
    exact IndexJs.removeNulls_prim (h ⟨k, v⟩ hkv)
  rw [hmap, List.filter_eq_self.mpr]
  · rw [if_neg]
    simp [List.isEmpty_iff, hne]
  · intro kv hkv
    rw [primNonNull_not_nullish (h kv hkv), primNonNull_not_emptyArr (h kv hkv)]
    rfl

/-- An object entry whose pruned value is neither nullish nor an empty
array survives the `index.js` pruner. -/
theorem IndexJs.removeNulls_obj_mem {es : List (String × Jx)} {k : String} {v : Jx}
    (hm : (k, v) ∈ es) (h1 : isNullish (IndexJs.removeNulls v) = false)
    (h2 : isEmptyArr (IndexJs.removeNulls v) = false) :
    ∃ oes, IndexJs.removeNulls (.obj es) = .obj oes ∧ (k, IndexJs.removeNulls v) ∈ oes := by
  have hmem : (k, IndexJs.removeNulls v) ∈
      (es.map (fun kv => (kv.1, IndexJs.removeNulls kv.2))).filter
        (fun kv => !(isNullish kv.2) && !(isEmptyArr kv.2)) := by
    refine List.mem_filter.mpr ⟨List.mem_map.mpr ⟨(k, v), hm, rfl⟩, ?_⟩
    rw [h1, h2]
    rfl
  have hemp : ((es.map (fun kv => (kv.1, IndexJs.removeNulls kv.2))).filter
      (fun kv => !(isNullish kv.2) && !(isEmptyArr kv.2))).isEmpty = false := by
    cases hc : ((es.map (fun kv => (kv.1, IndexJs.removeNulls kv.2))).filter
        (fun kv => !(isNullish kv.2) && !(isEmptyArr kv.2))).isEmpty
    · rfl
    · rw [List.isEmpty_iff] at hc
      rw [hc] at hmem
      exact absurd hmem (List.not_mem_nil _)
  refine ⟨_, ?_, hmem⟩
  rw [IndexJs.removeNulls, IndexJs.removeNullsEntries_eq_map]
  simp only [hemp]
  rfl

/-- `JSON.stringify` of a non-nullish value is the rendered string. -/
theorem jsonStringify_eq_str {u : Jx} (h : isNullish u = false) :
    jsonStringify u = .str (jstr u) := by
  cases u with
  | null => simp [isNullish] at h
  | undef => simp [isNullish] at h
  | bool b => rfl
  | num n => rfl
  | str s2 => rfl
  | arr l => rfl
  | obj es => rfl

/-- Slicing never yields more characters than the bound. -/
theorem jsSlice_length_le (s : String) (n : Nat) : (jsSlice s n).length ≤ n := by
  rw [jsSlice, String.length_mk, List.length_take]
  omega

/-- A classified context has a present, non-null update. -/
theorem IndexJsB.detect_ok_not_nullish {ctx : Ctx} {t : String}
    (ht : IndexJsB.detectEventType ctx = .ok t) : isNullish ctx.update = false := by
  obtain ⟨u, f, ch⟩ := ctx
  cases u with
  | null => exact Except.noConfusion (show (Except.error () : Except Unit String) = .ok t from ht)
  | undef => exact Except.noConfusion (show (Except.error () : Except Unit String) = .ok t from ht)
  | bool b => rfl
  | num n => rfl
  | str s2 => rfl
  | arr l => rfl
  | obj es => rfl

/-- C8: in the second `src/index.js` composer, a raw event classified into
a financial category (`successful_payment`, `invoice`,
`pre_checkout_query`, `shipping_query`) gets a `raw_update` snapshot that
is the full serialized update with no length truncation, and — for a
successful payment whose five audit fields are non-null scalars — a
`payment` sub-record carrying those five fields verbatim; a raw event of
any non-financial category gets its snapshot serialized and truncated to
the 500-character bound. -/
theorem claim_C8_financial_snapshot (ctx : Ctx) (bot : Jx) (now : Int) (t : String)
    (out : Jx) (hok : IndexJsB.safeCtx ctx bot now = .ok out)
    (ht : IndexJsB.detectEventType ctx = .ok t) :
    ((t = "successful_payment" ∨ t = "invoice" ∨ t = "pre_checkout_query" ∨
        t = "shipping_query") →
      (∃ oes, out = .obj oes ∧ ("raw_update", .str (jstr ctx.update)) ∈ oes) ∧
      (truthy (getOpt ctx.message "successful_payment") = true →
        primNonNull (getOpt (getOpt ctx.message "successful_payment") "currency") = true →
        primNonNull (getOpt (getOpt ctx.message "successful_payment") "total_amount") = true →
        primNonNull (getOpt (getOpt ctx.message "successful_payment") "invoice_payload")
          = true →
        primNonNull (getOpt (getOpt ctx.message "successful_payment")
          "telegram_payment_charge_id") = true →
        primNonNull (getOpt (getOpt ctx.message "successful_payment")
          "provider_payment_charge_id") = true →
        ∃ oes, out = .obj oes ∧
          ("payment", Jx.obj [
            ("currency", getOpt (getOpt ctx.message "successful_payment") "currency"),
            ("total_amount", getOpt (getOpt ctx.message "successful_payment") "total_amount"),
            ("invoice_payload",
              getOpt (getOpt ctx.message "successful_payment") "invoice_payload"),
            ("telegram_payment_charge_id",
              getOpt (getOpt ctx.message "successful_payment") "telegram_payment_charge_id"),
            ("provider_payment_charge_id",
              getOpt (getOpt ctx.message "successful_payment") "provider_payment_charge_id")])
            ∈ oes)) ∧
    (¬(t = "successful_payment" ∨ t = "invoice" ∨ t = "pre_checkout_query" ∨
        t = "shipping_query") → truthy ctx.update = true →
      ∃ oes, out = .obj oes ∧
        ("raw_update", .str (jsSlice (jstr ctx.update) 500)) ∈ oes ∧
        (jsSlice (jstr ctx.update) 500).length ≤ 500) := by
  simp only [IndexJsB.safeCtx] at hok
  rw [ht, exc_bind_ok] at hok
  cases h1 : IndexJsB.sliceText (getOpt ctx.message "text") 200 with
  | error e =>
      rw [h1, exc_bind_error] at hok
      exact Except.noConfusion hok
  | ok m =>
  rw [h1, exc_bind_ok] at hok
  cases h2 : IndexJsB.sliceText (getOpt ctx.callbackQuery "data") 200 with
  | error e =>
      rw [h2, exc_bind_error] at hok
      exact Except.noConfusion hok
  | ok c =>
  rw [h2, exc_bind_ok] at hok
  cases h3 : IndexJsB.sliceText (getOpt ctx.inlineQuery "query") 200 with
  | error e =>
      rw [h3, exc_bind_error] at hok
      exact Except.noConfusion hok
  | ok i =>
  rw [h3, exc_bind_ok] at hok
  cases h4 : IndexJsB.photoField ctx.message with
  | error e =>
      rw [h4, exc_bind_error] at hok
      exact Except.noConfusion hok
  | ok p =>
  rw [h4, exc_bind_ok] at hok
  cases h5 : IndexJsB.pollField ctx.message with
  | error e =>
      rw [h5, exc_bind_error] at hok
      exact Except.noConfusion hok
  | ok q =>
  rw [h5, exc_bind_ok] at hok
  simp only [Except.ok.injEq] at hok
  have hnn : isNullish ctx.update = false := IndexJsB.detect_ok_not_nullish ht
  refine ⟨fun hfin => ⟨?_, ?_⟩, fun hnf htr => ?_⟩
  · have hraw : IndexJsB.rawUpdateField ctx.update t = .str (jstr ctx.update) := by
      rw [IndexJsB.rawUpdateField, if_pos hfin, jsonStringify_eq_str hnn]
    have hm : ("raw_update", Jx.str (jstr ctx.update))
        ∈ IndexJsB.payload ctx bot now t m c i p q := by
      rw [← hraw]
      simp [IndexJsB.payload]
    obtain ⟨oes, ho, hmem⟩ := IndexJs.removeNulls_obj_mem hm rfl rfl
    refine ⟨oes, ?_, hmem⟩
    rw [← hok]
    exact ho
  · intro hsp hc1 hc2 hc3 hc4 hc5
    have hpay : IndexJsB.paymentField ctx = Jx.obj [
        ("currency", getOpt (getOpt ctx.message "successful_payment") "currency"),
        ("total_amount", getOpt (getOpt ctx.message "successful_payment") "total_amount"),
        ("invoice_payload",
          getOpt (getOpt ctx.message "successful_payment") "invoice_payload"),
        ("telegram_payment_charge_id",
          getOpt (getOpt ctx.message "successful_payment") "telegram_payment_charge_id"),
        ("provider_payment_charge_id",
          getOpt (getOpt ctx.message "successful_payment") "provider_payment_charge_id")] := by
      rw [IndexJsB.paymentField, if_pos hsp]
    have hprim : ∀ kv ∈ [
        ("currency", getOpt (getOpt ctx.message "successful_payment") "currency"),
        ("total_amount", getOpt (getOpt ctx.message "successful_payment") "total_amount"),
        ("invoice_payload",
          getOpt (getOpt ctx.message "successful_payment") "invoice_payload"),
        ("telegram_payment_charge_id",
          getOpt (getOpt ctx.message "successful_payment") "telegram_payment_charge_id"),
        ("provider_payment_charge_id",
          getOpt (getOpt ctx.message "successful_payment") "provider_payment_charge_id")],
        primNonNull kv.2 = true := by
      intro kv hkv
      simp only [List.mem_cons, List.not_mem_nil, or_false] at hkv
      rcases hkv with h | h | h | h | h
      · rw [h]
        exact hc1
      · rw [h]
        exact hc2
      · rw [h]
        exact hc3
      · rw [h]
        exact hc4
      · rw [h]
        exact hc5
    have hobj : IndexJs.removeNulls (IndexJsB.paymentField ctx) = Jx.obj [
        ("currency", getOpt (getOpt ctx.message "successful_payment") "currency"),
        ("total_amount", getOpt (getOpt ctx.message "successful_payment") "total_amount"),
        ("invoice_payload",
          getOpt (getOpt ctx.message "successful_payment") "invoice_payload"),
        ("telegram_payment_charge_id",
          getOpt (getOpt ctx.message "successful_payment") "telegram_payment_charge_id"),
        ("provider_payment_charge_id",
          getOpt (getOpt ctx.message "successful_payment") "provider_payment_charge_id")] := by
      rw [hpay]
      exact IndexJs.removeNulls_obj_of_prim (by simp) hprim
    have hm : ("payment", IndexJsB.paymentField ctx)
        ∈ IndexJsB.payload ctx bot now t m c i p q := by
      simp [IndexJsB.payload]
    obtain ⟨oes, ho, hmem⟩ := IndexJs.removeNulls_obj_mem hm
      (by rw [hobj]; rfl) (by rw [hobj]; rfl)
    rw [hobj] at hmem
    refine ⟨oes, ?_, hmem⟩
    rw [← hok]
    exact ho
  · have hraw : IndexJsB.rawUpdateField ctx.update t
        = .str (jsSlice (jstr ctx.update) 500) := by
      rw [IndexJsB.rawUpdateField, if_neg hnf, if_pos htr]
    have hm : ("raw_update", Jx.str (jsSlice (jstr ctx.update) 500))
        ∈ IndexJsB.payload ctx bot now t m c i p q := by
      rw [← hraw]
      simp [IndexJsB.payload]
    obtain ⟨oes, ho, hmem⟩ := IndexJs.removeNulls_obj_mem hm rfl rfl
    refine ⟨oes, ?_, hmem, jsSlice_length_le (jstr ctx.update) 500⟩
    rw [← hok]
    exact ho

/-- Scenario B of the spec: a message carrying a successful payment with
the five audit fields. -/
def scenarioB : Ctx :=
  ⟨.obj [("message", .obj [("successful_payment", .obj [
    ("currency", .str "USD"), ("total_amount", .num 500), ("invoice_payload", .str "abc"),
    ("telegram_payment_charge_id", .str "t1"), ("provider_payment_charge_id", .str "p1")])])],
   .undef, .undef⟩

/-- C8 witness: scenario B composes successfully, its snapshot is the full
serialized update, and the payment sub-record carries the five fields
verbatim. -/
theorem claim_C8_financial_snapshot_witness :
    ∃ out, IndexJsB.safeCtx scenarioB .undef 0 = .ok out ∧
      (∃ oes, out = .obj oes ∧ ("raw_update", .str (jstr scenarioB.update)) ∈ oes) ∧
      (∃ oes, out = .obj oes ∧
        ("payment", Jx.obj [("currency", .str "USD"), ("total_amount", .num 500),
          ("invoice_payload", .str "abc"), ("telegram_payment_charge_id", .str "t1"),
          ("provider_payment_charge_id", .str "p1")]) ∈ oes) := by
  obtain ⟨out, hout⟩ : ∃ out, IndexJsB.safeCtx scenarioB .undef 0 = .ok out := ⟨_, rfl⟩
  have H := claim_C8_financial_snapshot scenarioB .undef 0 "successful_payment" out hout rfl
  exact ⟨out, hout, (H.1 (Or.inl rfl)).1, (H.1 (Or.inl rfl)).2 rfl rfl rfl rfl rfl rfl⟩
